import Mathlib

/-!
Verification of the split-dwarf Mach-O tool (`sd.go` and the `macho`
package it embeds) against its natural-language specification.

The Go sources are shallowly embedded: byte buffers become `List Nat`
(each element a byte value), unsigned machine arithmetic is `Nat` with
explicit reduction modulo `2^32` / `2^64` at the operations where Go
would overflow, and fallible operations return `Option` / `Except`.
A Go `panic` (including the `fail` helper) and an I/O-level read error
are modelled as distinguished error outcomes, since neither returns a
value to the caller.
-/

namespace SplitDwarf

/-- Two to the 32, the modulus of Go `uint32` arithmetic. -/
def u32Mod : Nat := 2 ^ 32

/-- Two to the 64, the modulus of Go `uint64` arithmetic. -/
def u64Mod : Nat := 2 ^ 64

/-- Byte `i` of a buffer, 0 when out of range (callers bound-check first). -/
def byteAt (b : List Nat) (i : Nat) : Nat := b.getD i 0

/-- Big-endian 32-bit decode at position `i`, as in `binary.BigEndian.Uint32`. -/
def beU32At (b : List Nat) (i : Nat) : Nat :=
  byteAt b i * 0x1000000 + byteAt b (i+1) * 0x10000 + byteAt b (i+2) * 0x100 + byteAt b (i+3)

/-- Little-endian 32-bit decode at position `i`, as in `binary.LittleEndian.Uint32`. -/
def leU32At (b : List Nat) (i : Nat) : Nat :=
  byteAt b (i+3) * 0x1000000 + byteAt b (i+2) * 0x10000 + byteAt b (i+1) * 0x100 + byteAt b i

/-- Big-endian 16-bit decode at position `i`. -/
def beU16At (b : List Nat) (i : Nat) : Nat := byteAt b i * 0x100 + byteAt b (i+1)

/-- Little-endian 16-bit decode at position `i`. -/
def leU16At (b : List Nat) (i : Nat) : Nat := byteAt b (i+1) * 0x100 + byteAt b i

/-- Big-endian 64-bit decode at position `i`, as in `binary.BigEndian.Uint64`. -/
def beU64At (b : List Nat) (i : Nat) : Nat :=
  beU32At b i * 0x100000000 + beU32At b (i+4)

/-- Little-endian 64-bit decode at position `i`. -/
def leU64At (b : List Nat) (i : Nat) : Nat :=
  leU32At b (i+4) * 0x100000000 + leU32At b i

/-- The byte order of a parsed file (`binary.ByteOrder` restricted to the
two instances `NewFile` can select). -/
inductive ByteOrder where
  | littleEndian
  | bigEndian
deriving DecidableEq, Repr

/-- Order-dispatched 32-bit decode (`bo.Uint32`). -/
def ByteOrder.u32At (bo : ByteOrder) (b : List Nat) (i : Nat) : Nat :=
  match bo with
  | .bigEndian => beU32At b i
  | .littleEndian => leU32At b i

/-- Order-dispatched 16-bit decode (`bo.Uint16`). -/
def ByteOrder.u16At (bo : ByteOrder) (b : List Nat) (i : Nat) : Nat :=
  match bo with
  | .bigEndian => beU16At b i
  | .littleEndian => leU16At b i

/-- Order-dispatched 64-bit decode (`bo.Uint64`). -/
def ByteOrder.u64At (bo : ByteOrder) (b : List Nat) (i : Nat) : Nat :=
  match bo with
  | .bigEndian => beU64At b i
  | .littleEndian => leU64At b i

/-- Go `cstring` (sd.go 1236-1242): take the bytes before the first 0 byte;
`bytes.IndexByte` returns -1 when absent, which the function patches to
`len(b)`, so the whole slice is returned. `List.indexOf 0 b` is that index
(it is `b.length` when 0 does not occur). -/
def cstring (b : List Nat) : List Nat := b.take (List.indexOf 0 b)

/-- Mach-O 32-bit magic number (src/unnamed/part_000). -/
def Magic32 : Nat := 0xfeedface

/-- Mach-O 64-bit magic number. -/
def Magic64 : Nat := 0xfeedfacf

/-- Mach-O fat-container magic number. -/
def MagicFat : Nat := 0xcafebabe

/-- Go `roundup` (sd.go 1377-1379): `(x + align - 1) & -align` in `uint64`
arithmetic. `-align` in `uint64` is `2^64 - align`. -/
def roundup (x align : Nat) : Nat :=
  ((x + align - 1) % u64Mod) &&& ((u64Mod - align) % u64Mod)

/-- Go `FormatError` (sd.go 804-808): offset, message, optional offending
value.  The offsets that ever reach a `FormatError` in the modelled paths
are non-negative `int64`s, so `Nat` suffices. -/
structure FormatErr where
  off : Nat
  msg : String
  val : Option Nat
deriving DecidableEq, Repr

/-- The distinct ways `NewFile` can fail: a `*FormatError` return value, an
error propagated from the underlying reader (`ReadAt` / `binary.Read`
short reads), or a runtime panic (which terminates the process rather than
returning). -/
inductive ParseErr where
  | format (e : FormatErr)
  | ioRead
  | panicked (msg : String)
deriving DecidableEq, Repr

/-- Go `Reloc` (sd.go 636-647).  The Go field `Extern` is called `extrn`
and `Len` is called `rlen` here; `Type` is `typ`. -/
structure Reloc where
  addr : Nat
  value : Nat
  typ : Nat
  rlen : Nat
  pcrel : Bool
  extrn : Bool
  scattered : Bool
deriving DecidableEq, Repr

/-- A Mach-O section as the model sees it: the header fields of
`SectionHeader` plus `data`, the byte content reachable through the
section's bounded reader view.  The view created by `pushSection` is
`io.NewSectionReader(r, Offset, Size)`, so `data` is the slice of the
underlying file from `Offset` of length at most `Size` (shorter when the
file ends first), which is exactly what `ReadAt` through the view can
deliver. -/
structure Sectn where
  name : List Nat
  seg : List Nat
  addr : Nat
  size : Nat
  offset : Nat
  align : Nat
  reloff : Nat
  nreloc : Nat
  flags : Nat
  reserved1 : Nat
  reserved2 : Nat
  reserved3 : Nat
  relocs : List Reloc
  data : List Nat
deriving DecidableEq, Repr

instance : Inhabited Sectn := ⟨⟨[], [], 0, 0, 0, 0, 0, 0, 0, 0, 0, 0, [], []⟩⟩

/-- The name bytes of `"__z"`, the prefix marking compressed sections. -/
def zPfx : List Nat := [0x5f, 0x5f, 0x7a]

/-- Whether a section name starts with `"__z"` (`strings.HasPrefix(s.Name, "__z")`). -/
def nameStartsZ (nm : List Nat) : Bool := nm.take 3 = zPfx

/-- The bytes of the string `"ZLIB"`. -/
def zlibTag : List Nat := [0x5a, 0x4c, 0x49, 0x42]

/-- Reading 12 bytes at offset 0 through a section's view
(`s.sr.ReadAt(b, 0)` with `len(b) = 12`).  `io.SectionReader` truncates the
request to the view limit `Size` and reports `io.EOF` when it does, and the
underlying `ReaderAt` errors when the file cannot supply all requested
bytes; so the read yields 12 bytes exactly when both the declared size and
the actually-available data reach 12, and errors otherwise. -/
def sectionRead12 (s : Sectn) : Option (List Nat) :=
  if 12 ≤ s.size ∧ 12 ≤ s.data.length then some (s.data.take 12) else none

/-- Go `Section.UncompressedSize` (sd.go 432-448).  A read error panics
("Malformed object file"), modelled as `none`.  The successful-but-short
branch (`n != len(b)`) of the source cannot fire under the `ReaderAt`
contract, which demands a non-nil error whenever fewer bytes are returned,
so the model has the two reachable non-error outcomes.  The `12 + N`
addition is `uint64` and therefore reduced modulo `2^64`. -/
def Sectn.uncompressedSize (s : Sectn) : Option Nat :=
  if ¬ nameStartsZ s.name then some s.size
  else
    match sectionRead12 s with
    | none => none
    | some b =>
      if b.take 4 = zlibTag then some ((12 + beU64At b 4) % u64Mod)
      else some s.size

/-- The page-alignment constant of sd.go: `1 << pageAlign` with `pageAlign = 12`. -/
def pageSize : Nat := 4096

/-- The layout the synthesis engine computes for the new `__LINKEDIT` and
`__DWARF` segments (sd.go 206-221), as a record of the assigned fields.
Inputs are the `uint64` values the code reads: `newdata.Addr`,
`newdata.Memsz`, the final string cursor (a `uint32` widened to `uint64`
for `Filesz`), and `dwarf.UncompressedSize(&exem.FileTOC, 1)`. -/
structure SegLayout where
  linkeditOffset : Nat
  linkeditFilesz : Nat
  linkeditAddr : Nat
  linkeditMemsz : Nat
  dwarfOffset : Nat
  dwarfFilesz : Nat
  dwarfAddr : Nat
  dwarfMemsz : Nat
deriving Repr

/-- The field assignments of sd.go 206-221.  `linkeditsymbase` is
`uint32(1) << 12 = 4096`; additions between `uint64` fields reduce modulo
`2^64`. -/
def newSegLayout (dataAddr dataMemsz stringcur dwarfFilesz : Nat) : SegLayout :=
  let leOffset := 4096
  let leFilesz := stringcur % u32Mod
  let leAddr := roundup ((dataAddr + dataMemsz) % u64Mod) pageSize
  let leMemsz := roundup leFilesz pageSize
  let dwOffset := roundup ((leOffset + leFilesz) % u64Mod) pageSize
  let dwAddr := (leAddr + leMemsz) % u64Mod
  let dwMemsz := roundup (dwarfFilesz % u64Mod) pageSize
  { linkeditOffset := leOffset, linkeditFilesz := leFilesz,
    linkeditAddr := leAddr, linkeditMemsz := leMemsz,
    dwarfOffset := dwOffset, dwarfFilesz := dwarfFilesz % u64Mod,
    dwarfAddr := dwAddr, dwarfMemsz := dwMemsz }

/-! Load-command opcodes (src/unnamed/part_000, 91-121). -/

/-- Opcode `LC_SEGMENT`. -/
def LoadCmdSegment : Nat := 0x1

/-- Opcode `LC_SYMTAB`. -/
def LoadCmdSymtab : Nat := 0x2

/-- Opcode `LC_DYSYMTAB`. -/
def LoadCmdDysymtab : Nat := 0xb

/-- Opcode `LC_LOAD_DYLIB`. -/
def LoadCmdDylib : Nat := 0xc

/-- Opcode `LC_LOAD_DYLINKER`. -/
def LoadCmdLoadDylinker : Nat := 0xe

/-- Opcode `LC_ID_DYLINKER`. -/
def LoadCmdIdDylinker : Nat := 0xf

/-- Opcode `LC_SEGMENT_64`. -/
def LoadCmdSegment64 : Nat := 0x19

/-- Opcode `LC_UUID`. -/
def LoadCmdUuid : Nat := 0x1b

/-- Opcode `LC_CODE_SIGNATURE`. -/
def LoadCmdCodeSignature : Nat := 0x1d

/-- Opcode `LC_SEGMENT_SPLIT_INFO`. -/
def LoadCmdSegmentSplitInfo : Nat := 0x1e

/-- Opcode `LC_RPATH`. -/
def LoadCmdRpath : Nat := 0x8000001c

/-- Opcode `LC_ENCRYPTION_INFO`. -/
def LoadCmdEncryptionInfo : Nat := 0x21

/-- Opcode `LC_DYLD_INFO`. -/
def LoadCmdDyldInfo : Nat := 0x22

/-- Opcode `LC_DYLD_INFO_ONLY`. -/
def LoadCmdDyldInfoOnly : Nat := 0x80000022

/-- Opcode `LC_FUNCTION_STARTS`. -/
def LoadCmdFunctionStarts : Nat := 0x26

/-- Opcode `LC_DYLD_ENVIRONMENT`. -/
def LoadCmdDyldEnv : Nat := 0x27

/-- Opcode `LC_DATA_IN_CODE`. -/
def LoadCmdDataInCode : Nat := 0x29

/-- Opcode `LC_DYLIB_CODE_SIGN_DRS`. -/
def LoadCmdDylibCodeSignDrs : Nat := 0x2b

/-- Opcode `LC_ENCRYPTION_INFO_64`. -/
def LoadCmdEncryptionInfo64 : Nat := 0x2c

/-- Go `SymtabCmd` (header part): opcode, declared length, symbol-array
offset, symbol count, string-table offset and size. -/
structure SymtabCmd where
  cmd : Nat
  len : Nat
  symoff : Nat
  nsyms : Nat
  stroff : Nat
  strsize : Nat
deriving DecidableEq, Repr

/-- Go `DysymtabCmd`: the full 80-byte dynamic symbol table command. -/
structure DysymtabCmd where
  cmd : Nat
  len : Nat
  ilocalsym : Nat
  nlocalsym : Nat
  iextdefsym : Nat
  nextdefsym : Nat
  iundefsym : Nat
  nundefsym : Nat
  tocoffset : Nat
  ntoc : Nat
  modtaboff : Nat
  nmodtab : Nat
  extrefsymoff : Nat
  nextrefsyms : Nat
  indirectsymoff : Nat
  nindirectsyms : Nat
  extreloff : Nat
  nextrel : Nat
  locreloff : Nat
  nlocrel : Nat
deriving DecidableEq, Repr

/-- Go `DylinkerCmd`: opcode, declared length, name offset. -/
structure DylinkerCmd where
  cmd : Nat
  len : Nat
  name : Nat
deriving DecidableEq, Repr

/-- Go `LinkEditDataCmd`. -/
structure LinkEditDataCmd where
  cmd : Nat
  len : Nat
  dataoff : Nat
  datalen : Nat
deriving DecidableEq, Repr

/-- Go `EncryptionInfoCmd`. -/
structure EncryptionInfoCmd where
  cmd : Nat
  len : Nat
  cryptoff : Nat
  cryptlen : Nat
  cryptid : Nat
deriving DecidableEq, Repr

/-- Go `DyldInfoCmd`. -/
structure DyldInfoCmd where
  cmd : Nat
  len : Nat
  rebaseOff : Nat
  rebaseLen : Nat
  bindOff : Nat
  bindLen : Nat
  weakBindOff : Nat
  weakBindLen : Nat
  lazyBindOff : Nat
  lazyBindLen : Nat
  exportOff : Nat
  exportLen : Nat
deriving DecidableEq, Repr

/-- Go `Symbol` (sd.go 790-796): resolved name plus the copied `Nlist`
fields.  `Type` is `typ` here. -/
structure Symbol where
  name : List Nat
  typ : Nat
  sect : Nat
  desc : Nat
  value : Nat
deriving DecidableEq, Repr

instance : Inhabited Symbol := ⟨⟨[], 0, 0, 0, 0⟩⟩

/-- Go `Nlist64` (src/unnamed/part_000, 357-363): the wire symbol entry
with a string-table offset in place of a name. -/
structure Nlist64 where
  name : Nat
  typ : Nat
  sect : Nat
  desc : Nat
  value : Nat
deriving DecidableEq, Repr

instance : Inhabited Nlist64 := ⟨⟨0, 0, 0, 0, 0⟩⟩

/-- Go `SegmentHeader` (sd.go 555-568).  The embedded reader view is not
part of the header. -/
structure SegmentHeader where
  loadCmd : Nat
  len : Nat
  name : List Nat
  addr : Nat
  memsz : Nat
  offset : Nat
  filesz : Nat
  maxprot : Nat
  prot : Nat
  nsect : Nat
  flag : Nat
  firstsect : Nat
deriving DecidableEq, Repr

/-- The sum type of parsed load commands, one constructor per variant that
`NewFile` builds (sd.go 910-1126); `rawBytes` is `LoadCmdBytes`. -/
inductive Load where
  | rawBytes (cmd : Nat) (bytes : List Nat)
  | segment (seg : SegmentHeader)
  | symtab (cmd : SymtabCmd) (syms : List Symbol)
  | dysymtab (cmd : DysymtabCmd) (indirectSyms : List Nat)
  | dylib (name : List Nat) (time currentVersion compatVersion : Nat)
  | dylinker (cmd : DylinkerCmd) (name : List Nat)
  | rpath (path : List Nat)
  | linkEditData (cmd : LinkEditDataCmd)
  | encryptionInfo (cmd : EncryptionInfoCmd)
  | dyldInfo (cmd : DyldInfoCmd)
deriving DecidableEq, Repr

instance : Inhabited Load := ⟨.rawBytes 0 []⟩

/-- Go `FileTOC.LoadAlign` (sd.go 367-372). -/
def loadAlign (magic : Nat) : Nat := if magic = Magic64 then 8 else 4

/-- Go `Load.LoadSize` dispatched over the variants (sd.go 536, 610-615,
694-696, 707-709, 721-723, 733-735, 745-747, 757-759, 771-773, 785-787).
The fixed summands are the `unsafe.Sizeof` values of the corresponding
wire structures: `Segment64`/`Section64` are 72/80 bytes, `Segment32`/
`Section32` are 56/68, `SymtabCmd` 24, `DysymtabCmd` 80, `DylibCmd` 24,
`DylinkerCmd` 12, `RpathCmd` 12, `LinkEditDataCmd` 16,
`EncryptionInfoCmd` 20, `DyldInfoCmd` 48. -/
def Load.loadSize (magic : Nat) : Load → Nat
  | .rawBytes _ bytes => bytes.length
  | .segment seg =>
      if seg.loadCmd = LoadCmdSegment64 then 72 + seg.nsect * 80 else 56 + seg.nsect * 68
  | .symtab _ _ => 24
  | .dysymtab _ _ => 80
  | .dylib name _ _ _ => roundup (24 + name.length) (loadAlign magic)
  | .dylinker _ name => roundup (12 + name.length) (loadAlign magic)
  | .rpath path => roundup (12 + path.length) (loadAlign magic)
  | .linkEditData _ => 16
  | .encryptionInfo _ => 20
  | .dyldInfo _ => 48

/-- Go `ReaderAt.ReadAt` over the input file: `n` bytes at `off`, an error
(non-nil) whenever fewer than `n` bytes exist there. -/
def readAt (file : List Nat) (off n : Nat) : Option (List Nat) :=
  if off + n ≤ file.length then some ((file.drop off).take n) else none

/-- The per-symbol loop of Go `File.parseSymtab` (sd.go 1143-1169): decode
`Nlist64` or `Nlist32` entries in sequence, bound-check the string-table
offset, and resolve the name with `cstring`.  `offset` is the value the
caller passed (the file offset just past the symtab command record). -/
def parseSymtabSyms (bo : ByteOrder) (magic : Nat) (symdat strtab : List Nat)
    (offset : Nat) : Nat → Nat → Except ParseErr (List Symbol)
  | 0, _ => .ok []
  | n+1, pos =>
    let symsz := if magic = Magic64 then 16 else 12
    if symdat.length < pos + symsz then .error .ioRead
    else
      let nName := bo.u32At symdat pos
      let nTyp := byteAt symdat (pos+4)
      let nSect := byteAt symdat (pos+5)
      let nDesc := bo.u16At symdat (pos+6)
      let nValue := if magic = Magic64 then bo.u64At symdat (pos+8) else bo.u32At symdat (pos+8)
      if strtab.length ≤ nName then
        .error (.format ⟨offset, "invalid name in symbol table", some nName⟩)
      else
        match parseSymtabSyms bo magic symdat strtab offset n (pos + symsz) with
        | .error e => .error e
        | .ok rest =>
          .ok ({ name := cstring (strtab.drop nName), typ := nTyp, sect := nSect,
                 desc := nDesc, value := nValue } :: rest)

/-- The relocation decode loop of `pushSection` (sd.go 1194-1230).  The
caller always supplies `reldat` of exactly `8 * nreloc` bytes (it was read
in full), so the sequential `binary.Read`s cannot fail. -/
def parseRelocs (bo : ByteOrder) (reldat : List Nat) : Nat → Nat → List Reloc
  | 0, _ => []
  | n+1, i =>
    let riAddr := bo.u32At reldat (i*8)
    let riSymnum := bo.u32At reldat (i*8+4)
    let rel : Reloc :=
      if riAddr &&& 0x80000000 ≠ 0 then
        { addr := riAddr &&& 0xFFFFFF, typ := (riAddr >>> 24) &&& 0xF,
          rlen := (riAddr >>> 28) &&& 0x3, pcrel := riAddr &&& 0x40000000 != 0,
          value := riSymnum, extrn := false, scattered := true }
      else
        match bo with
        | .littleEndian =>
          { addr := riAddr, value := riSymnum &&& 0xFFFFFF,
            pcrel := riSymnum &&& 0x1000000 != 0, rlen := (riSymnum >>> 25) &&& 0x3,
            extrn := riSymnum &&& 0x8000000 != 0, typ := (riSymnum >>> 28) &&& 0xF,
            scattered := false }
        | .bigEndian =>
          { addr := riAddr, value := riSymnum >>> 8,
            pcrel := riSymnum &&& 0x80 != 0, rlen := (riSymnum >>> 5) &&& 0x3,
            extrn := riSymnum &&& 0x10 != 0, typ := riSymnum &&& 0xF,
            scattered := false }
    rel :: parseRelocs bo reldat n (i+1)

/-- Go `File.pushSection` (sd.go 1180-1234): append the section to the
flat list, attach its bounded view, and decode its relocations when
`Nreloc > 0`; a short relocation read propagates as an error. -/
def pushSection (file : List Nat) (bo : ByteOrder) (sh : Sectn) (sections : List Sectn) :
    Except ParseErr (List Sectn) :=
  let sh1 := { sh with data := (file.drop sh.offset).take sh.size }
  if sh1.nreloc > 0 then
    match readAt file sh1.reloff (sh1.nreloc * 8) with
    | none => .error .ioRead
    | some reldat =>
      .ok (sections ++ [{ sh1 with relocs := parseRelocs bo reldat sh1.nreloc 0 }])
  else .ok (sections ++ [sh1])

/-- The inline `Section32` decode loop of the `LoadCmdSegment` branch
(sd.go 1025-1045): each header is 68 bytes, read sequentially after the
56-byte segment header; a short read is an error. -/
def parseSections32 (file : List Nat) (bo : ByteOrder) (cmddat : List Nat) :
    Nat → Nat → List Sectn → Except ParseErr (List Sectn)
  | 0, _, sections => .ok sections
  | n+1, pos, sections =>
    if cmddat.length < pos + 68 then .error .ioRead
    else
      let sh : Sectn := {
        name := cstring ((cmddat.drop pos).take 16),
        seg := cstring ((cmddat.drop (pos+16)).take 16),
        addr := bo.u32At cmddat (pos+32),
        size := bo.u32At cmddat (pos+36),
        offset := bo.u32At cmddat (pos+40),
        align := bo.u32At cmddat (pos+44),
        reloff := bo.u32At cmddat (pos+48),
        nreloc := bo.u32At cmddat (pos+52),
        flags := bo.u32At cmddat (pos+56),
        reserved1 := bo.u32At cmddat (pos+60),
        reserved2 := bo.u32At cmddat (pos+64),
        reserved3 := 0, relocs := [], data := [] }
      match pushSection file bo sh sections with
      | .error e => .error e
      | .ok sections2 => parseSections32 file bo cmddat n (pos+68) sections2

/-- The inline `Section64` decode loop of the `LoadCmdSegment64` branch
(sd.go 1067-1088): each header is 80 bytes after the 72-byte segment
header. -/
def parseSections64 (file : List Nat) (bo : ByteOrder) (cmddat : List Nat) :
    Nat → Nat → List Sectn → Except ParseErr (List Sectn)
  | 0, _, sections => .ok sections
  | n+1, pos, sections =>
    if cmddat.length < pos + 80 then .error .ioRead
    else
      let sh : Sectn := {
        name := cstring ((cmddat.drop pos).take 16),
        seg := cstring ((cmddat.drop (pos+16)).take 16),
        addr := bo.u64At cmddat (pos+32),
        size := bo.u64At cmddat (pos+40),
        offset := bo.u32At cmddat (pos+48),
        align := bo.u32At cmddat (pos+52),
        reloff := bo.u32At cmddat (pos+56),
        nreloc := bo.u32At cmddat (pos+60),
        flags := bo.u32At cmddat (pos+64),
        reserved1 := bo.u32At cmddat (pos+68),
        reserved2 := bo.u32At cmddat (pos+72),
        reserved3 := bo.u32At cmddat (pos+76),
        relocs := [], data := [] }
      match pushSection file bo sh sections with
      | .error e => .error e
      | .ok sections2 => parseSections64 file bo cmddat n (pos+80) sections2

/-- Decode `n` 32-bit integers (the indirect-symbol array of the
`LoadCmdDysymtab` branch, sd.go 991-998).  The buffer was read with the
exact length, so decoding cannot fail. -/
def decodeU32List (bo : ByteOrder) (d : List Nat) : Nat → Nat → List Nat
  | 0, _ => []
  | n+1, i => bo.u32At d (i*4) :: decodeU32List bo d n (i+1)

/-- The `LoadCmdRpath` arm of the `NewFile` switch (sd.go 914-925). -/
def parseRpathArm (bo : ByteOrder) (cmddat : List Nat) (offsetAfter : Nat)
    (sections : List Sectn) : Except ParseErr (Load × List Sectn) :=
  if cmddat.length < 12 then .error .ioRead
  else
    let pathOff := bo.u32At cmddat 8
    if cmddat.length ≤ pathOff then
      .error (.format ⟨offsetAfter, "invalid path in rpath command", some pathOff⟩)
    else .ok (.rpath (cstring (cmddat.drop pathOff)), sections)

/-- The dylinker arm (three opcodes) of the switch (sd.go 927-939). -/
def parseDylinkerArm (bo : ByteOrder) (cmd : Nat) (cmddat : List Nat) (offsetAfter : Nat)
    (sections : List Sectn) : Except ParseErr (Load × List Sectn) :=
  if cmddat.length < 12 then .error .ioRead
  else
    let nameOff := bo.u32At cmddat 8
    if cmddat.length ≤ nameOff then
      .error (.format ⟨offsetAfter, "invalid name in dynamic linker command", some nameOff⟩)
    else
      .ok (.dylinker { cmd := cmd, len := bo.u32At cmddat 4, name := nameOff }
             (cstring (cmddat.drop nameOff)), sections)

/-- The `LoadCmdDylib` arm of the switch (sd.go 941-955). -/
def parseDylibArm (bo : ByteOrder) (cmddat : List Nat) (offsetAfter : Nat)
    (sections : List Sectn) : Except ParseErr (Load × List Sectn) :=
  if cmddat.length < 24 then .error .ioRead
  else
    let nameOff := bo.u32At cmddat 8
    if cmddat.length ≤ nameOff then
      .error (.format ⟨offsetAfter, "invalid name in dynamic library command", some nameOff⟩)
    else
      .ok (.dylib (cstring (cmddat.drop nameOff)) (bo.u32At cmddat 12)
             (bo.u32At cmddat 16) (bo.u32At cmddat 20), sections)

/-- The `LoadCmdSymtab` arm (sd.go 957-983): decode the header, read the
string table and symbol payload, run `parseSymtab`.  A failing
`parseSymtab` is followed by `st.SymtabCmd = hdr` on a nil `st`
(sd.go 977-981), a nil-pointer panic, so its errors surface as a panic,
not as the constructed `FormatError`. -/
def parseSymtabArm (file : List Nat) (bo : ByteOrder) (magic : Nat) (cmd : Nat)
    (cmddat : List Nat) (offsetAfter : Nat) (sections : List Sectn) :
    Except ParseErr (Load × List Sectn) :=
  if cmddat.length < 24 then .error .ioRead
  else
    let hdr : SymtabCmd :=
      { cmd := cmd, len := bo.u32At cmddat 4,
        symoff := bo.u32At cmddat 8, nsyms := bo.u32At cmddat 12,
        stroff := bo.u32At cmddat 16, strsize := bo.u32At cmddat 20 }
    match readAt file hdr.stroff hdr.strsize with
    | none => .error .ioRead
    | some strtab =>
      let symsz := if magic = Magic64 then 16 else 12
      match readAt file hdr.symoff (hdr.nsyms * symsz) with
      | none => .error .ioRead
      | some symdat =>
        match parseSymtabSyms bo magic symdat strtab offsetAfter hdr.nsyms 0 with
        | .error _ => .error (.panicked "invalid memory address or nil pointer dereference")
        | .ok syms => .ok (.symtab hdr syms, sections)

/-- The `LoadCmdDysymtab` arm (sd.go 985-1003). -/
def parseDysymtabArm (file : List Nat) (bo : ByteOrder) (cmd : Nat)
    (cmddat : List Nat) (sections : List Sectn) : Except ParseErr (Load × List Sectn) :=
  if cmddat.length < 80 then .error .ioRead
  else
    let hdr : DysymtabCmd :=
      { cmd := cmd, len := bo.u32At cmddat 4,
        ilocalsym := bo.u32At cmddat 8, nlocalsym := bo.u32At cmddat 12,
        iextdefsym := bo.u32At cmddat 16, nextdefsym := bo.u32At cmddat 20,
        iundefsym := bo.u32At cmddat 24, nundefsym := bo.u32At cmddat 28,
        tocoffset := bo.u32At cmddat 32, ntoc := bo.u32At cmddat 36,
        modtaboff := bo.u32At cmddat 40, nmodtab := bo.u32At cmddat 44,
        extrefsymoff := bo.u32At cmddat 48, nextrefsyms := bo.u32At cmddat 52,
        indirectsymoff := bo.u32At cmddat 56, nindirectsyms := bo.u32At cmddat 60,
        extreloff := bo.u32At cmddat 64, nextrel := bo.u32At cmddat 68,
        locreloff := bo.u32At cmddat 72, nlocrel := bo.u32At cmddat 76 }
    match readAt file hdr.indirectsymoff (hdr.nindirectsyms * 4) with
    | none => .error .ioRead
    | some d =>
      .ok (.dysymtab hdr (decodeU32List bo d hdr.nindirectsyms 0), sections)

/-- The `LoadCmdSegment` arm (sd.go 1005-1045). -/
def parseSegment32Arm (file : List Nat) (bo : ByteOrder) (cmd siz : Nat)
    (cmddat : List Nat) (sections : List Sectn) : Except ParseErr (Load × List Sectn) :=
  if cmddat.length < 56 then .error .ioRead
  else
    let seg : SegmentHeader :=
      { loadCmd := cmd, len := siz,
        name := cstring ((cmddat.drop 8).take 16),
        addr := bo.u32At cmddat 24, memsz := bo.u32At cmddat 28,
        offset := bo.u32At cmddat 32, filesz := bo.u32At cmddat 36,
        maxprot := bo.u32At cmddat 40, prot := bo.u32At cmddat 44,
        nsect := bo.u32At cmddat 48, flag := bo.u32At cmddat 52,
        firstsect := sections.length }
    match parseSections32 file bo cmddat seg.nsect 56 sections with
    | .error e => .error e
    | .ok sections2 => .ok (.segment seg, sections2)

/-- The `LoadCmdSegment64` arm (sd.go 1047-1088). -/
def parseSegment64Arm (file : List Nat) (bo : ByteOrder) (cmd siz : Nat)
    (cmddat : List Nat) (sections : List Sectn) : Except ParseErr (Load × List Sectn) :=
  if cmddat.length < 72 then .error .ioRead
  else
    let seg : SegmentHeader :=
      { loadCmd := cmd, len := siz,
        name := cstring ((cmddat.drop 8).take 16),
        addr := bo.u64At cmddat 24, memsz := bo.u64At cmddat 32,
        offset := bo.u64At cmddat 40, filesz := bo.u64At cmddat 48,
        maxprot := bo.u32At cmddat 56, prot := bo.u32At cmddat 60,
        nsect := bo.u32At cmddat 64, flag := bo.u32At cmddat 68,
        firstsect := sections.length }
    match parseSections64 file bo cmddat seg.nsect 72 sections with
    | .error e => .error e
    | .ok sections2 => .ok (.segment seg, sections2)

/-- The `LinkEditData` arm (five opcodes, sd.go 1090-1101). -/
def parseLinkEditDataArm (bo : ByteOrder) (cmd : Nat) (cmddat : List Nat)
    (sections : List Sectn) : Except ParseErr (Load × List Sectn) :=
  if cmddat.length < 16 then .error .ioRead
  else
    .ok (.linkEditData
           { cmd := cmd, len := bo.u32At cmddat 4,
             dataoff := bo.u32At cmddat 8, datalen := bo.u32At cmddat 12 }, sections)

/-- The `EncryptionInfo` arm (two opcodes, sd.go 1103-1113). -/
def parseEncryptionInfoArm (bo : ByteOrder) (cmd : Nat) (cmddat : List Nat)
    (sections : List Sectn) : Except ParseErr (Load × List Sectn) :=
  if cmddat.length < 20 then .error .ioRead
  else
    .ok (.encryptionInfo
           { cmd := cmd, len := bo.u32At cmddat 4,
             cryptoff := bo.u32At cmddat 8, cryptlen := bo.u32At cmddat 12,
             cryptid := bo.u32At cmddat 16 }, sections)

/-- The `DyldInfo` arm (two opcodes, sd.go 1115-1125). -/
def parseDyldInfoArm (bo : ByteOrder) (cmd : Nat) (cmddat : List Nat)
    (sections : List Sectn) : Except ParseErr (Load × List Sectn) :=
  if cmddat.length < 48 then .error .ioRead
  else
    .ok (.dyldInfo
           { cmd := cmd, len := bo.u32At cmddat 4,
             rebaseOff := bo.u32At cmddat 8, rebaseLen := bo.u32At cmddat 12,
             bindOff := bo.u32At cmddat 16, bindLen := bo.u32At cmddat 20,
             weakBindOff := bo.u32At cmddat 24, weakBindLen := bo.u32At cmddat 28,
             lazyBindOff := bo.u32At cmddat 32, lazyBindLen := bo.u32At cmddat 36,
             exportOff := bo.u32At cmddat 40, exportLen := bo.u32At cmddat 44 }, sections)

/-- The per-opcode switch of `NewFile` (sd.go 910-1126) for one command.
`cmddat` is the `siz`-byte command record, `offsetAfter` is the file
offset just past the record (the source advances `offset` before the
switch, so the errors raised inside the switch carry this value). -/
def parseBranch (file : List Nat) (bo : ByteOrder) (magic : Nat) (sections : List Sectn)
    (cmd siz : Nat) (cmddat : List Nat) (offsetAfter : Nat) :
    Except ParseErr (Load × List Sectn) :=
  if cmd = LoadCmdRpath then
    parseRpathArm bo cmddat offsetAfter sections
  else if cmd = LoadCmdLoadDylinker ∨ cmd = LoadCmdIdDylinker ∨ cmd = LoadCmdDyldEnv then
    parseDylinkerArm bo cmd cmddat offsetAfter sections
  else if cmd = LoadCmdDylib then
    parseDylibArm bo cmddat offsetAfter sections
  else if cmd = LoadCmdSymtab then
    parseSymtabArm file bo magic cmd cmddat offsetAfter sections
  else if cmd = LoadCmdDysymtab then
    parseDysymtabArm file bo cmd cmddat sections
  else if cmd = LoadCmdSegment then
    parseSegment32Arm file bo cmd siz cmddat sections
  else if cmd = LoadCmdSegment64 then
    parseSegment64Arm file bo cmd siz cmddat sections
  else if cmd = LoadCmdCodeSignature ∨ cmd = LoadCmdSegmentSplitInfo ∨
          cmd = LoadCmdFunctionStarts ∨ cmd = LoadCmdDataInCode ∨
          cmd = LoadCmdDylibCodeSignDrs then
    parseLinkEditDataArm bo cmd cmddat sections
  else if cmd = LoadCmdEncryptionInfo ∨ cmd = LoadCmdEncryptionInfo64 then
    parseEncryptionInfoArm bo cmd cmddat sections
  else if cmd = LoadCmdDyldInfo ∨ cmd = LoadCmdDyldInfoOnly then
    parseDyldInfoArm bo cmd cmddat sections
  else .ok (.rawBytes cmd cmddat, sections)

/-- One iteration of the load-command loop of `NewFile` (sd.go 897-1135):
the 8-byte prologue checks (with errors at the record's own offset), the
record split, the advance of `offset` past the record, the opcode switch,
and the final size assertion, whose failure panics (`"oops"`). -/
def parseOne (file : List Nat) (bo : ByteOrder) (magic : Nat) (sections : List Sectn)
    (dat : List Nat) (offset : Nat) :
    Except ParseErr (Load × List Sectn × List Nat × Nat) :=
  if dat.length < 8 then .error (.format ⟨offset, "command block too small", none⟩)
  else
    let cmd := bo.u32At dat 0
    let siz := bo.u32At dat 4
    if siz < 8 ∨ dat.length < siz then
      .error (.format ⟨offset, "invalid command block size", none⟩)
    else
      match parseBranch file bo magic sections cmd siz (dat.take siz) (offset + siz) with
      | .error e => .error e
      | .ok (l, sections2) =>
        if l.loadSize magic ≠ siz then .error (.panicked "oops")
        else .ok (l, sections2, dat.drop siz, offset + siz)

/-- The full load-command loop: `Ncmd` iterations of `parseOne`. -/
def parseLoads (file : List Nat) (bo : ByteOrder) (magic : Nat) :
    Nat → List Sectn → List Nat → Nat → Except ParseErr (List Load × List Sectn)
  | 0, sections, _, _ => .ok ([], sections)
  | n+1, sections, dat, offset =>
    match parseOne file bo magic sections dat offset with
    | .error e => .error e
    | .ok (l, sections2, rest, offset2) =>
      match parseLoads file bo magic n sections2 rest offset2 with
      | .error e => .error e
      | .ok (ls, sections3) => .ok (l :: ls, sections3)

/-- The `f.Symtab` field after the loop: each symtab command overwrites it,
so the last one parsed wins. -/
def lastSymtab : List Load → Option (SymtabCmd × List Symbol)
  | [] => none
  | .symtab c s :: rest =>
    match lastSymtab rest with
    | none => some (c, s)
    | some r => some r
  | _ :: rest => lastSymtab rest

/-- The `f.Dysymtab` field after the loop, same discipline. -/
def lastDysymtab : List Load → Option (DysymtabCmd × List Nat)
  | [] => none
  | .dysymtab c s :: rest =>
    match lastDysymtab rest with
    | none => some (c, s)
    | some r => some r
  | _ :: rest => lastDysymtab rest

/-- The big-endian interpretation of the four magic bytes
(`binary.BigEndian.Uint32(ident)`). -/
def beWord (b0 b1 b2 b3 : Nat) : Nat :=
  b0 * 0x1000000 + b1 * 0x10000 + b2 * 0x100 + b3

/-- The little-endian interpretation of the four magic bytes. -/
def leWord (b0 b1 b2 b3 : Nat) : Nat :=
  b3 * 0x1000000 + b2 * 0x10000 + b1 * 0x100 + b0

/-- The magic-detection switch of `NewFile` (sd.go 868-879).  Go's
`Magic32 &^ 1` clears bit 0, i.e. ANDs with `0xFFFFFFFE` in `uint32`; the
first matching case wins, `BigEndian` being tried first. -/
def detectMagic (b0 b1 b2 b3 : Nat) : Except FormatErr (ByteOrder × Nat) :=
  let be := beWord b0 b1 b2 b3
  let le := leWord b0 b1 b2 b3
  if Magic32 &&& 0xFFFFFFFE = be &&& 0xFFFFFFFE then .ok (.bigEndian, be)
  else if Magic32 &&& 0xFFFFFFFE = le &&& 0xFFFFFFFE then .ok (.littleEndian, le)
  else .error ⟨0, "invalid magic number", none⟩

/-- Go `File` restricted to the parsed table of contents: the decoded
header fields, the loads, the flat section list, and the `Symtab` /
`Dysymtab` shortcuts. -/
structure MachoFile where
  byteOrder : ByteOrder
  magic : Nat
  cpu : Nat
  subcpu : Nat
  typ : Nat
  ncmd : Nat
  cmdsz : Nat
  flags : Nat
  loads : List Load
  sections : List Sectn
  symtab : Option (SymtabCmd × List Symbol)
  dysymtab : Option (DysymtabCmd × List Nat)
deriving DecidableEq, Repr

/-- Go `NewFile` (sd.go 858-1137): read the 4 magic bytes, detect byte
order, re-read the 28-byte header in that order, read the `Cmdsz`-byte
load-command block at offset 28 or 32, and run the command loop.  The
header `binary.Read` re-decodes the magic in the detected order (equal to
the detected value), so the model reads it once. -/
def newFile (file : List Nat) : Except ParseErr MachoFile :=
  match readAt file 0 4 with
  | none => .error .ioRead
  | some ident =>
    match detectMagic (byteAt ident 0) (byteAt ident 1) (byteAt ident 2) (byteAt ident 3) with
    | .error e => .error (.format e)
    | .ok (bo, _) =>
      if file.length < 28 then .error .ioRead
      else
        let magic := bo.u32At file 0
        let ncmd := bo.u32At file 16
        let cmdsz := bo.u32At file 20
        let hdrOff := if magic = Magic64 then 32 else 28
        match readAt file hdrOff cmdsz with
        | none => .error .ioRead
        | some dat =>
          match parseLoads file bo magic ncmd [] dat hdrOff with
          | .error e => .error e
          | .ok (loads, sections) =>
            .ok { byteOrder := bo, magic := magic, cpu := bo.u32At file 4,
                  subcpu := bo.u32At file 8, typ := bo.u32At file 12,
                  ncmd := ncmd, cmdsz := cmdsz, flags := bo.u32At file 24,
                  loads := loads, sections := sections,
                  symtab := lastSymtab loads, dysymtab := lastDysymtab loads }

/-- The chain of self-declared command lengths in a load-command block:
entry `i` is the `siz` field of the `i`-th record, following the same
splitting discipline as the loop (undefined past the first malformed
prologue). -/
def cmdSizes (bo : ByteOrder) : Nat → List Nat → List Nat
  | 0, _ => []
  | n+1, dat =>
    if dat.length < 8 then []
    else
      let siz := bo.u32At dat 4
      if siz < 8 ∨ dat.length < siz then []
      else siz :: cmdSizes bo n (dat.drop siz)

/-- The declared command lengths of a whole input file, derived exactly as
`newFile` locates its load-command block. -/
def fileCmdSizes (file : List Nat) : List Nat :=
  match readAt file 0 4 with
  | none => []
  | some ident =>
    match detectMagic (byteAt ident 0) (byteAt ident 1) (byteAt ident 2) (byteAt ident 3) with
    | .error _ => []
    | .ok (bo, _) =>
      if file.length < 28 then []
      else
        let magic := bo.u32At file 0
        let ncmd := bo.u32At file 16
        let cmdsz := bo.u32At file 20
        let hdrOff := if magic = Magic64 then 32 else 28
        match readAt file hdrOff cmdsz with
        | none => []
        | some dat => cmdSizes bo ncmd dat

/-- Modelled from the spec: `FileTOC.SymbolSize` is used by sd.go line 160
but its body is not among the provided sources.  Spec §4.4 step 3: the
symbol region is `Nextdefsym × symbol-entry-size` bytes, the entry size
being 12 on 32-bit and 16 on 64-bit files. -/
def symbolSize (magic : Nat) : Nat := if magic = Magic64 then 16 else 12

/-- Go `linkeditsymbase` (sd.go 156): `uint32(1) << 12`. -/
def linkeditsymbase : Nat := 4096

/-- Go `linkeditstringbase` (sd.go 160): `linkeditsymbase +
SymbolSize() * Nextdefsym`, all in `uint32` arithmetic. -/
def linkeditstringbase (magic next : Nat) : Nat :=
  (linkeditsymbase + (symbolSize magic * next) % u32Mod) % u32Mod

/-- The symbol-restriction loop of the synthesis engine (sd.go 169-179):
iteration `i` reads `symtab.Syms[i + Iextdefsym]` (a `uint32` sum), keeps
the symbol, emits a wire `Nlist64` whose `Name` is the running `uint32`
string cursor, and advances the cursor by `uint32(len(name)) + 1`.
Returns (retained symbols, emitted Nlists, retained names, final cursor);
the recursion argument is the remaining iteration count. -/
def synthSymsAux (syms : List Symbol) (iext : Nat) :
    Nat → Nat → Nat → List Symbol × List Nlist64 × List (List Nat) × Nat
  | _, cur, 0 => ([], [], [], cur)
  | i, cur, k+1 =>
    let ii := (i + iext) % u32Mod
    let oldsym := syms.getD ii default
    let cur2 := (cur + (oldsym.name.length % u32Mod + 1)) % u32Mod
    let r := synthSymsAux syms iext (i+1) cur2 k
    (oldsym :: r.1,
     { name := cur, typ := oldsym.typ, sect := oldsym.sect,
       desc := oldsym.desc, value := oldsym.value } :: r.2.1,
     oldsym.name :: r.2.2.1, r.2.2.2)

/-- The whole loop of sd.go 165-180: cursor starts at 2 (the two reserved
string-table bytes), index at 0, `Nextdefsym` iterations. -/
def synthSymtab (syms : List Symbol) (iext n : Nat) :
    List Symbol × List Nlist64 × List (List Nat) × Nat :=
  synthSymsAux syms iext 0 2 n

/-- Sum of `name length + 1` over `j` retained symbols starting at loop
index `i` (the exact distance the string cursor travels). -/
def lensum (syms : List Symbol) (iext : Nat) : Nat → Nat → Nat
  | _, 0 => 0
  | i, j+1 => ((syms.getD (iext + i) default).name.length + 1) + lensum syms iext (i+1) j

/-- One store to the output buffer (`buffer[i] = v`); indexing out of
range panics in Go, modelled as `none`. -/
def setByte (buf : List Nat) (i v : Nat) : Option (List Nat) :=
  if i < buf.length then some (buf.set i v) else none

/-- The inner loop of sd.go 263-269 for one name: each byte of the string,
then a terminating 0, the `uint32` offset incrementing per byte. -/
def writeStr (buf : List Nat) (off : Nat) : List Nat → Option (List Nat × Nat)
  | [] =>
    match setByte buf off 0 with
    | none => none
    | some b => some (b, (off+1) % u32Mod)
  | c :: cs =>
    match setByte buf off c with
    | none => none
    | some b => writeStr b ((off+1) % u32Mod) cs

/-- The outer loop of sd.go 263-270 over all retained names. -/
def writeStrs (buf : List Nat) (off : Nat) : List (List Nat) → Option (List Nat)
  | [] => some buf
  | s :: ss =>
    match writeStr buf off s with
    | none => none
    | some (b, off2) => writeStrs b off2 ss

/-- The string-table serialisation of sd.go 260-270: the sentinel bytes
`' '` and 0 at `linkeditstringbase`, then the names. -/
def writeStringTable (buf : List Nat) (base : Nat) (strs : List (List Nat)) :
    Option (List Nat) :=
  match setByte buf base 0x20 with
  | none => none
  | some b1 =>
    match setByte b1 ((base + 1) % u32Mod) 0 with
    | none => none
    | some b2 => writeStrs b2 ((base + 2) % u32Mod) strs

/-- Go `Section.Copy` (sd.go 673-675): a fresh section object carrying
only the header (no reader view, no relocations). -/
def Sectn.copy (s : Sectn) : Sectn := { s with relocs := [], data := [] }

/-- One iteration's store effect in the `copyZOdSections` loop
(sd.go 190-195): allocate a fresh copy of source section `i` at the end of
the store, then zero its `Offset`, `Reloff` and `Nreloc` through three
assignments to the fresh entry. -/
def copyZOdStep (st : List Sectn) (i : Nat) : List Sectn :=
  let o := st.getD i default
  let id := st.length
  let st1 := st ++ [o.copy]
  let st2 := st1.set id { (st1.getD id default) with offset := 0 }
  let st3 := st2.set id { (st2.getD id default) with reloff := 0 }
  st3.set id { (st3.getD id default) with nreloc := 0 }

/-- The `copyZOdSections` loop of the synthesis engine (sd.go 189-197),
threaded through an explicit store of section objects.  The source file's
sections occupy the store's initial prefix; `Copy` allocates a fresh entry
at the end of the store and the three field assignments hit that fresh
entry; `AddSection` records its index.  Arguments: current source index,
remaining count, store, accumulated new-TOC section indices. -/
def copyZOdLoop : Nat → Nat → List Sectn → List Nat → List Sectn × List Nat
  | _, 0, st, ids => (st, ids)
  | i, k+1, st, ids =>
    copyZOdLoop (i+1) k (copyZOdStep st i) (ids ++ [st.length])

/-- One iteration's store effect in the DWARF-section loop
(sd.go 227-240), given the uncompressed size `us` already read from the
source section: allocate the copy, then in source order assign `Offset`,
conditionally rewrite `Size`/`Align`, conditionally rewrite the `"__z"`
name (`s.Name[0:2] + s.Name[3:]`), then zero `Reloff` and `Nreloc`. -/
def dwarfStep (st : List Sectn) (i off us : Nat) : List Sectn :=
  let o := st.getD i default
  let id := st.length
  let st1 := st ++ [o.copy]
  let st2 := st1.set id { (st1.getD id default) with offset := off }
  let st3 :=
    if (st2.getD id default).size < us then
      st2.set id { (st2.getD id default) with size := us, align := 0 }
    else st2
  let st4 :=
    if nameStartsZ (st3.getD id default).name then
      st3.set id { (st3.getD id default) with
                   name := (st3.getD id default).name.take 2 ++
                           (st3.getD id default).name.drop 3 }
    else st3
  let st5 := st4.set id { (st4.getD id default) with reloff := 0 }
  st5.set id { (st5.getD id default) with nreloc := 0 }

/-- The DWARF-section loop of the synthesis engine (sd.go 225-241), store
threaded as in `copyZOdLoop`.  `off` is the running `uint32` cursor
(initialised by the caller to `uint32(newdwarf.Offset)`); reading the
source section's uncompressed size can panic (`none`), and the cursor
advances by `uint32(us)` in `uint32` arithmetic. -/
def dwarfLoop : Nat → Nat → List Sectn → List Nat → Nat →
    Option (List Sectn × List Nat × Nat)
  | _, 0, st, ids, off => some (st, ids, off)
  | i, k+1, st, ids, off =>
    match (st.getD i default).uncompressedSize with
    | none => none
    | some us =>
      dwarfLoop (i+1) k (dwarfStep st i off us) (ids ++ [st.length])
        ((off + us % u32Mod) % u32Mod)

/-- A compressed-marked section whose ZLIB header declares uncompressed
length `2^64 - 1`; the `uint64` sum `12 + N` wraps to 11.  The name bytes
are `"__zdebug"`. -/
def zWrapSection : Sectn :=
  { name := [0x5f, 0x5f, 0x7a, 0x64, 0x65, 0x62, 0x75, 0x67], seg := [],
    addr := 0, size := 200, offset := 0, align := 0, reloff := 0, nreloc := 0,
    flags := 0, reserved1 := 0, reserved2 := 0, reserved3 := 0, relocs := [],
    data := [0x5a, 0x4c, 0x49, 0x42, 255, 255, 255, 255, 255, 255, 255, 255] }

/-- A compressed-marked section with a well-behaved ZLIB header declaring
uncompressed length 5. -/
def zSmallSection : Sectn :=
  { name := [0x5f, 0x5f, 0x7a, 0x64, 0x65, 0x62, 0x75, 0x67], seg := [],
    addr := 0, size := 20, offset := 0, align := 0, reloff := 0, nreloc := 0,
    flags := 0, reserved1 := 0, reserved2 := 0, reserved3 := 0, relocs := [],
    data := [0x5a, 0x4c, 0x49, 0x42, 0, 0, 0, 0, 0, 0, 0, 5] }

/-- A minimal well-formed 32-bit little-endian input: the 28-byte header
(`Ncmd = 1`, `Cmdsz = 8`) followed by one 8-byte command with the
unrecognised opcode 0x99 (parsed as raw bytes, whose computed size always
matches its declared size). -/
def exFileC6 : List Nat :=
  [0xce, 0xfa, 0xed, 0xfe, 7, 0, 0, 0, 3, 0, 0, 0, 2, 0, 0, 0,
   1, 0, 0, 0, 8, 0, 0, 0, 0, 0, 0, 0,
   0x99, 0, 0, 0, 8, 0, 0, 0]

/-- The parse result of `exFileC6`. -/
def exParsedC6 : MachoFile :=
  { byteOrder := .littleEndian, magic := 0xfeedface, cpu := 7, subcpu := 3,
    typ := 2, ncmd := 1, cmdsz := 8, flags := 0,
    loads := [.rawBytes 0x99 [0x99, 0, 0, 0, 8, 0, 0, 0]], sections := [],
    symtab := none, dysymtab := none }

/-- A 32-bit little-endian input whose single command is an `LC_RPATH`
(opcode 0x8000001c) of declared size 12 with path offset 200, which is out
of range; its record starts at file offset 28, and the `FormatError` the
parser produces carries offset 40 = 28 + 12. -/
def exFileC7 : List Nat :=
  [0xce, 0xfa, 0xed, 0xfe, 7, 0, 0, 0, 3, 0, 0, 0, 2, 0, 0, 0,
   1, 0, 0, 0, 12, 0, 0, 0, 0, 0, 0, 0,
   0x1c, 0, 0, 0x80, 12, 0, 0, 0, 200, 0, 0, 0]

/-- Overwrite the bytes of `buf` starting at `i` with `bs` (the effect of
a run of in-bounds single-byte stores). -/
def splice (buf : List Nat) (i : Nat) (bs : List Nat) : List Nat :=
  buf.take i ++ bs ++ buf.drop (i + bs.length)

/-- Each name followed by its 0 terminator, concatenated. -/
def joinPlus (strs : List (List Nat)) : List Nat :=
  (strs.map (fun s => s ++ [0])).flatten

/-- The wire image of the output string table: the sentinel bytes
`' '`, 0, then the null-terminated names. -/
def strTableBytes (strs : List (List Nat)) : List Nat :=
  0x20 :: 0 :: joinPlus strs

/-- Byte length of the first `i` null-terminated names. -/
def prefLen (strs : List (List Nat)) : Nat → Nat
  | 0 => 0
  | i+1 =>
    match strs with
    | [] => 0
    | s :: ss => s.length + 1 + prefLen ss i

/-- Sum of the uncompressed sizes of `j` consecutive sections starting at
store index `i` (0 for a panicking section; the callers establish that
every summand is a `some`). -/
def usSum (st : List Sectn) (i : Nat) : Nat → Nat
  | 0 => 0
  | j+1 => (st.getD i default).uncompressedSize.getD 0 + usSum st (i+1) j

/-- Three concrete symbols for the synthesis-engine witnesses. -/
def exSyms : List Symbol :=
  [⟨[120], 1, 2, 3, 4⟩, ⟨[97, 98, 99], 5, 6, 7, 8⟩, ⟨[100], 9, 10, 11, 12⟩]

/-- The buffer state after the string-table write of the C2 witness:
20 filler bytes 7, with the table `' ', 0, "abc", 0, "d", 0` spliced in at
offset 5. -/
def exC2Buf2 : List Nat :=
  [7, 7, 7, 7, 7, 0x20, 0, 97, 98, 99, 0, 100, 0, 7, 7, 7, 7, 7, 7, 7]

/-- A plain (uncompressed) section used by the store-loop witnesses. -/
def exPlainSec : Sectn :=
  { name := [0x5f, 0x5f, 0x78], seg := [], addr := 7, size := 5, offset := 3,
    align := 1, reloff := 9, nreloc := 0, flags := 0, reserved1 := 0,
    reserved2 := 0, reserved3 := 0, relocs := [], data := [1, 2, 3, 4, 5] }

/-- The fresh store entry `dwarfLoop` allocates for `exPlainSec` when the
cursor is 4096: the header copy with `Offset` 4096 and `Reloff`/`Nreloc`
zeroed. -/
def exC8New : Sectn :=
  { name := [0x5f, 0x5f, 0x78], seg := [], addr := 7, size := 5, offset := 4096,
    align := 1, reloff := 0, nreloc := 0, flags := 0, reserved1 := 0,
    reserved2 := 0, reserved3 := 0, relocs := [], data := [] }

/-- The store after one `dwarfLoop` iteration over `[exPlainSec]`. -/
def exC8Store : List Sectn := [exPlainSec, exC8New]

instance : Inhabited SegmentHeader := ⟨⟨0, 0, [], 0, 0, 0, 0, 0, 0, 0, 0, 0⟩⟩

instance : Inhabited SymtabCmd := ⟨⟨0, 0, 0, 0, 0, 0⟩⟩

/-- Go `Load.Command()` on the parsed variants: `LoadCmdBytes` and the
fixed-header commands return their stored opcode (part_000 89, sd.go 543),
a segment its header's opcode (the embedded `LoadCmd`), `Dylib` and
`Rpath` their fixed opcodes (sd.go 688, 781). -/
def Load.command : Load → Nat
  | .rawBytes cmd _ => cmd
  | .segment seg => seg.loadCmd
  | .symtab c _ => c.cmd
  | .dysymtab c _ => c.cmd
  | .dylib _ _ _ _ => LoadCmdDylib
  | .dylinker c _ => c.cmd
  | .rpath _ => LoadCmdRpath
  | .linkEditData c => c.cmd
  | .encryptionInfo c => c.cmd
  | .dyldInfo c => c.cmd

/-- A load entry as a Go `[]Load` holds it: `*Segment` and `*Symtab` are
pointers to mutable objects, modelled as indices into an explicit heap of
segment headers (`segPtr`) and of symtabs (`symPtr`); every other variant
is never written through after construction by this program, so it is held
by value. -/
inductive LoadPtr where
  | segPtr (id : Nat)
  | symPtr (id : Nat)
  | val (l : Load)
deriving DecidableEq, Repr

/-- `Load.Command()` through a load pointer (heap lookup for segments;
a symtab command is `LoadCmdSymtab`, sd.go 726). -/
def loadPtrCommand (segs : List SegmentHeader) : LoadPtr → Nat
  | .segPtr id => (segs.getD id default).loadCmd
  | .symPtr _ => LoadCmdSymtab
  | .val l => l.command

/-- Go `File.Segment(name)` (sd.go 1245-1253): the first load that is a
segment whose name matches. -/
def findSegment (segs : List SegmentHeader) (name : List Nat) :
    List LoadPtr → Option Nat
  | [] => none
  | .segPtr id :: ls =>
    if (segs.getD id default).name = name then some id
    else findSegment segs name ls
  | _ :: ls => findSegment segs name ls

/-- The uuid scan of `main` (sd.go 105-111): every load whose opcode is
`LcUuid` is assigned to the `uuid` variable, so the last one wins. -/
def findUuid (segs : List SegmentHeader) :
    Option LoadPtr → List LoadPtr → Option LoadPtr
  | acc, [] => acc
  | acc, l :: ls =>
    findUuid segs
      (if loadPtrCommand segs l = LoadCmdUuid then some l else acc) ls

/-- Go `Segment.LoadSize` (sd.go 610-615): the wire size of the segment
command, 72 + Nsect * 80 for `Segment64`, 56 + Nsect * 68 for `Segment32`
(the `unsafe.Sizeof` values). -/
def segHeaderLoadSize (h : SegmentHeader) : Nat :=
  if h.loadCmd = LoadCmdSegment64 then 72 + h.nsect * 80 else 56 + h.nsect * 68

/-- `Load.LoadSize` through a load pointer (a symtab command is 24 bytes,
sd.go 721-723). -/
def loadPtrSize (magic : Nat) (segs : List SegmentHeader) : LoadPtr → Nat
  | .segPtr id => segHeaderLoadSize (segs.getD id default)
  | .symPtr _ => 24
  | .val l => l.loadSize magic

/-- Go `FileTOC.LoadSize` (sd.go 389-397): the `uint64` sum of the wire
sizes of all loads. -/
def tocLoadSize (magic : Nat) (segs : List SegmentHeader) :
    Nat → List LoadPtr → Nat
  | acc, [] => acc
  | acc, l :: ls => tocLoadSize magic segs ((acc + loadPtrSize magic segs l) % u64Mod) ls

/-- The segment-extent maximum of Go `FileTOC.FileSize` (sd.go 401-412):
for every segment load, `Offset + Filesz` (a `uint64` sum) replaces the
running size whenever it is larger. -/
def tocFileSizeAux (segs : List SegmentHeader) : Nat → List LoadPtr → Nat
  | sz, [] => sz
  | sz, .segPtr id :: ls =>
      let h := segs.getD id default
      let m := (h.offset + h.filesz) % u64Mod
      tocFileSizeAux segs (if sz < m then m else sz) ls
  | sz, _ :: ls => tocFileSizeAux segs sz ls

/-- Go `FileTOC.FileSize` (sd.go 401-412): the extent maximum seeded with
`LoadSize`. -/
def tocFileSize (magic : Nat) (segs : List SegmentHeader)
    (loads : List LoadPtr) : Nat :=
  tocFileSizeAux segs (tocLoadSize magic segs 0 loads) loads

/-- Go `FileTOC.HdrSize` (sd.go 374-387): 28 bytes for `Magic32`, 32 for
`Magic64` (`fileHeaderSize32/64`, part_000 24-25); any other magic panics,
modelled as `none`. -/
def hdrSize (magic : Nat) : Option Nat :=
  if magic = Magic32 then some 28
  else if magic = Magic64 then some 32
  else none

/-- The `uint64` inner sum of Go `Segment.UncompressedSize` (sd.go
423-430): add up `Sections[i].UncompressedSize()` for `nsect` sections
starting at flat index `i`; a fatal read is `none`. -/
def usSumU64 (store : List Sectn) : Nat → Nat → Nat → Option Nat
  | _, acc, 0 => some acc
  | i, acc, k+1 =>
    match (store.getD i default).uncompressedSize with
    | none => none
    | some us => usSumU64 store (i+1) ((acc + us) % u64Mod) k

/-- Go `Segment.UncompressedSize` (sd.go 423-430): the summed section
sizes rounded with `(sz + align - 1) & uint64(-int64(align))`. -/
def segUncompressedSize (store : List Sectn) (firstsect nsect align : Nat) :
    Option Nat :=
  match usSumU64 store firstsect 0 nsect with
  | none => none
  | some sz => some (((sz + align - 1) % u64Mod) &&& ((u64Mod - align) % u64Mod))

/-- The `uint32` subtraction `a - b` (the `ioff` computation of
sd.go 273 wraps modulo `2^32`). -/
def u32sub (a b : Nat) : Nat := (a % u32Mod + (u32Mod - b % u32Mod)) % u32Mod

/-- `n` bytes of `v`, least significant first. -/
def leBytes : Nat → Nat → List Nat
  | 0, _ => []
  | k+1, v => v % 256 :: leBytes k (v / 256)

/-- `n` bytes of `v` in the given byte order. -/
def ByteOrder.bytes (bo : ByteOrder) (n v : Nat) : List Nat :=
  match bo with
  | .littleEndian => leBytes n v
  | .bigEndian => (leBytes n v).reverse

/-- Modelled from the spec: `Nlist64.Put64`/`Put32` are not under `src/`.
Spec 4.5: the Nlist writer emits the wire entry (12 or 16 bytes by
bitness, part_000 348-363: `uint32` name, two single bytes, `uint16`
desc, then a 64- or 32-bit value) in the TOC byte order and returns the
byte count so the caller can advance the cursor. -/
def nlistBytes (bo : ByteOrder) (magic : Nat) (nl : Nlist64) : List Nat :=
  ByteOrder.bytes bo 4 nl.name ++ [nl.typ % 256, nl.sect % 256] ++
    ByteOrder.bytes bo 2 nl.desc ++
    (if magic = Magic64 then ByteOrder.bytes bo 8 nl.value
     else ByteOrder.bytes bo 4 nl.value)

/-- Overwrite `bs.length` bytes of `buf` at `off`; running past the end of
the buffer panics in Go, modelled as `none`. -/
def spliceChecked (buf : List Nat) (off : Nat) (bs : List Nat) :
    Option (List Nat) :=
  if off + bs.length ≤ buf.length then some (splice buf off bs) else none

/-- The nlist serialisation loop of `main` (sd.go 249-256): each wire
entry lands at the running `uint32` offset, which advances by the entry
size. -/
def writeNlists (bo : ByteOrder) (magic : Nat) :
    List Nat → Nat → List Nlist64 → Option (List Nat)
  | buf, _, [] => some buf
  | buf, off, nl :: nls =>
    let bs := nlistBytes bo magic nl
    match spliceChecked buf off bs with
    | none => none
    | some b => writeNlists bo magic b ((off + bs.length) % u32Mod) nls

/-- Modelled from the spec: `Section.PutUncompressedData` is not under
`src/`.  Spec 4.4 step 8 and the round-trip property of spec 8: it writes
exactly `UncompressedSize` bytes of payload (a plain section byte for
byte, a `"ZLIB"`-marked one inflated).  The frame properties proved here
never look at the written bytes, so the payload image is abstracted to the
section's stored bytes zero-padded or truncated to that length; a fatal
size read is `none`. -/
def putUncompressedData (s : Sectn) : Option (List Nat) :=
  match s.uncompressedSize with
  | none => none
  | some us => some (s.data.take us ++ List.replicate (us - s.data.length) 0)

/-- The DWARF payload loop of `main` (sd.go 272-277): for each source
`__DWARF` section at flat index `i`, the new header at new-TOC section
index `i + ioff` (a `uint32` sum; `newtoc.Sections[j]` panics when out of
range) names the file offset at which the payload is written. -/
def putDwarfSections (store : List Sectn) (newSections : List Nat)
    (ioff : Nat) : Nat → Nat → List Nat → Option (List Nat)
  | _, 0, buf => some buf
  | i, k+1, buf =>
    let j := (i + ioff) % u32Mod
    if j < newSections.length then
      match putUncompressedData (store.getD i default) with
      | none => none
      | some bs =>
        match spliceChecked buf (store.getD (newSections.getD j 0) default).offset bs with
        | none => none
        | some b2 => putDwarfSections store newSections ioff (i+1) k b2
    else none

/-- Modelled from the spec: `FileTOC.Put` is not under `src/`.  Spec 4.2:
it writes the file header at offset 0 using the current counts and size,
then each load at its natural position within the load-command block, each
serialiser zero-padding to its declared size — a `HdrSize + LoadSize` byte
image at offset 0.  No property proved here looks at the image bytes, so
they are abstracted to a zero run of that length. -/
def tocPut (magic : Nat) (segs : List SegmentHeader) (loads : List LoadPtr)
    (buf : List Nat) : Option (List Nat) :=
  match hdrSize magic with
  | none => none
  | some hs =>
    spliceChecked buf 0
      (List.replicate ((hs + tocLoadSize magic segs 0 loads) % u64Mod) 0)

/-- The bytes of the segment name `"__TEXT"`. -/
def nmTEXT : List Nat := [0x5f, 0x5f, 0x54, 0x45, 0x58, 0x54]

/-- The bytes of the segment name `"__DATA"`. -/
def nmDATA : List Nat := [0x5f, 0x5f, 0x44, 0x41, 0x54, 0x41]

/-- The bytes of the segment name `"__LINKEDIT"`. -/
def nmLINKEDIT : List Nat := [0x5f, 0x5f, 0x4c, 0x49, 0x4e, 0x4b, 0x45, 0x44, 0x49, 0x54]

/-- The bytes of the segment name `"__PAGEZERO"`. -/
def nmPAGEZERO : List Nat := [0x5f, 0x5f, 0x50, 0x41, 0x47, 0x45, 0x5a, 0x45, 0x52, 0x4f]

/-- The bytes of the segment name `"__DWARF"`. -/
def nmDWARF : List Nat := [0x5f, 0x5f, 0x44, 0x57, 0x41, 0x52, 0x46]

/-- The state of a parsed `File` as the synthesis engine receives it,
with the two pointer-shared object populations made explicit: the heap of
segment headers (`segs`, pointed to by the `segPtr` loads), the store of
section objects (`store`, whose initial prefix is the flat source section
list in parse order), and the heap of symtabs (`symHeap`, pointed to by
`symPtr` loads and by the `File.Symtab` field `symtabId`).  `dysymtab` is
the `File.Dysymtab` field, read but never written by the engine. -/
structure BuildIn where
  magic : Nat
  bo : ByteOrder
  loads : List LoadPtr
  symtabId : Option Nat
  dysymtab : Option DysymtabCmd
  segs : List SegmentHeader
  store : List Sectn
  symHeap : List (SymtabCmd × List Symbol)

/-- Everything the TOC-building phase of `main` (sd.go 105-241) hands to
the serialisation phase: the three object populations after the build,
the new TOC's loads and flat section list, and the linkedit products. -/
structure BuildMid where
  magic : Nat
  bo : ByteOrder
  segs : List SegmentHeader
  store : List Sectn
  symHeap : List (SymtabCmd × List Symbol)
  newLoads : List LoadPtr
  newSections : List Nat
  nlists : List Nlist64
  names : List (List Nat)
  strbase : Nat
  newlinkeditId : Nat
  newdwarfId : Nat
  dwarfId : Nat

/-- The final state of `main`: the object populations and the output
buffer. -/
structure BuildResult where
  segs : List SegmentHeader
  store : List Sectn
  symHeap : List (SymtabCmd × List Symbol)
  newLoads : List LoadPtr
  newSections : List Nat
  buffer : List Nat

instance : Inhabited BuildResult := ⟨⟨[], [], [], [], [], []⟩⟩

/-- The TOC-building phase of `main` (sd.go 105-241) over the explicit
object heaps.  Modelled from the spec where the TOC mutators are not
under `src/` (spec 4.2): `AddLoad(L)` appends `L`; `AddSegment(S)`
appends while anchoring `S.firstsect` to the TOC's current section count
— a write through the argument pointer, which for sd.go 200 is the
source-owned `__PAGEZERO` header (anchored to 0, the new TOC holding no
sections yet); `AddSection` appends to the flat list (`copyZOdLoop` and
`dwarfLoop` record the appended store indices); `CopyZeroed` duplicates
a segment header zeroing its file offset and file size (spec 4.4 step 2);
`RoundUp` is the `roundup` formula (sd.go 1377-1379).  `Segment.Copy`,
`Symtab.Copy` and `Section.Copy` (sd.go 606, 718, 673) build fresh
objects, so each fresh segment is allocated here already bearing the
field values main assigns to it (sd.go 144-146, 206-213, 215-221), and
the fresh symtab is allocated bearing the results of the restriction loop
(sd.go 164-180, embedded as `synthSymtab`); the heap end state is
identical to performing those writes one at a time on the fresh objects.
The five segment lookups are sd.go 125-131/139-142 and 215, the uuid scan
sd.go 105-111, the missing-collaborator failures are `fail` exits,
modelled `none`. -/
def buildToc (b : BuildIn) : Option BuildMid :=
  match b.symtabId, b.dysymtab with
  | some stId, some dysym =>
    match findSegment b.segs nmTEXT b.loads, findSegment b.segs nmDATA b.loads,
          findSegment b.segs nmLINKEDIT b.loads,
          findSegment b.segs nmPAGEZERO b.loads,
          findSegment b.segs nmDWARF b.loads with
    | some textId, some dataId, some linkeditId, some pagezeroId, some dwarfId =>
      let uuid := findUuid b.segs none b.loads
      let textH := b.segs.getD textId default
      let dataH := b.segs.getD dataId default
      let linkeditH := b.segs.getD linkeditId default
      let dwarfH := b.segs.getD dwarfId default
      let srcSymtab := b.symHeap.getD stId default
      let r := synthSymtab srcSymtab.2 dysym.iextdefsym dysym.nextdefsym
      let cur := r.2.2.2
      let strbase := linkeditstringbase b.magic dysym.nextdefsym
      let newsymId := b.symHeap.length
      let newSymtabCmd :=
        { srcSymtab.1 with
          symoff := linkeditsymbase, stroff := strbase,
          nsyms := dysym.nextdefsym, strsize := cur }
      let symHeap1 := b.symHeap ++ [(newSymtabCmd, r.1)]
      let segsA := b.segs.set pagezeroId
        { b.segs.getD pagezeroId default with firstsect := 0 }
      let newtextId := segsA.length
      let cz1 := copyZOdLoop textH.firstsect textH.nsect b.store []
      let cz2 := copyZOdLoop dataH.firstsect dataH.nsect cz1.1 cz1.2
      let leOff := linkeditsymbase
      let leFilesz := cur
      let leAddr := roundup ((dataH.addr + dataH.memsz) % u64Mod) pageSize
      let leMemsz := roundup leFilesz pageSize
      let newtextHdr :=
        { textH with offset := 0, filesz := 0, firstsect := 0 }
      let newdataHdr :=
        { dataH with
          offset := 0, filesz := 0, firstsect := cz1.2.length % u32Mod }
      let newlinkeditHdr :=
        { linkeditH with
          offset := leOff, filesz := leFilesz, addr := leAddr,
          memsz := leMemsz, firstsect := cz2.2.length % u32Mod }
      match segUncompressedSize cz2.1 dwarfH.firstsect dwarfH.nsect 1 with
      | none => none
      | some fsz =>
        let dwOff := roundup ((leOff + leFilesz) % u64Mod) pageSize
        let newdwarfHdr :=
          { dwarfH with
            offset := dwOff, filesz := fsz,
            addr := (leAddr + leMemsz) % u64Mod,
            memsz := roundup fsz pageSize,
            firstsect := cz2.2.length % u32Mod }
        match dwarfLoop dwarfH.firstsect dwarfH.nsect cz2.1 cz2.2 (dwOff % u32Mod) with
        | none => none
        | some res =>
          some { magic := b.magic, bo := b.bo,
                 segs := segsA ++
                   [newtextHdr, newdataHdr, newlinkeditHdr, newdwarfHdr],
                 store := res.1, symHeap := symHeap1,
                 newLoads := (match uuid with | some u => [u] | none => []) ++
                   [.symPtr newsymId, .segPtr pagezeroId, .segPtr newtextId,
                    .segPtr (newtextId + 1), .segPtr (newtextId + 2),
                    .segPtr (newtextId + 3)],
                 newSections := res.2.1, nlists := r.2.1, names := r.2.2.1,
                 strbase := strbase, newlinkeditId := newtextId + 2,
                 newdwarfId := newtextId + 3, dwarfId := dwarfId }
    | _, _, _, _, _ => none
  | _, _ => none

/-- The serialisation phase of `main` (sd.go 244-282): allocate a
`FileSize` buffer, write the nlists from `uint32(newlinkedit.Offset)`,
the string table at `linkeditstringbase`, each DWARF payload at the
offset its new section header records (`ioff` is the `uint32` difference
`newdwarf.Firstsect - dwarf.Firstsect`), and finally the header and load
commands at offset 0.  Every write lands in the buffer; the object heaps
are read only. -/
def serializeOutput (m : BuildMid) : Option (List Nat) :=
  let buffer0 := List.replicate (tocFileSize m.magic m.segs m.newLoads) 0
  match writeNlists m.bo m.magic buffer0
      ((m.segs.getD m.newlinkeditId default).offset % u32Mod) m.nlists with
  | none => none
  | some buf1 =>
    match writeStringTable buf1 m.strbase m.names with
    | none => none
    | some buf2 =>
      let dwarfH := m.segs.getD m.dwarfId default
      let ioff := u32sub (m.segs.getD m.newdwarfId default).firstsect dwarfH.firstsect
      match putDwarfSections m.store m.newSections ioff dwarfH.firstsect
          dwarfH.nsect buf2 with
      | none => none
      | some buf3 => tocPut m.magic m.segs m.newLoads buf3

/-- The whole of `main` after parsing (sd.go 105-282): build the new TOC,
then serialise the output buffer. -/
def mainBuild (b : BuildIn) : Option BuildResult :=
  match buildToc b with
  | none => none
  | some m =>
    match serializeOutput m with
    | none => none
    | some buf =>
      some { segs := m.segs, store := m.store, symHeap := m.symHeap,
             newLoads := m.newLoads, newSections := m.newSections,
             buffer := buf }

/-- A concrete parsed input for the frame-effect claim: a 64-bit
little-endian file whose load order is `__TEXT` (one section), `__DATA`
(one section), `__PAGEZERO`, `__LINKEDIT`, `__DWARF` (no sections), a
symtab, a dysymtab with `Iextdefsym = 0`, `Nextdefsym = 1`, and a uuid.
Because the parser assigns each segment's `Firstsect` the running flat
section count (sd.go 1023, 1065), the `__PAGEZERO` parsed after the two
sections carries `Firstsect = 2`. -/
def exBuildIn : BuildIn :=
  { magic := Magic64, bo := .littleEndian,
    loads := [.segPtr 1, .segPtr 2, .segPtr 0, .segPtr 3, .segPtr 4,
              .symPtr 0,
              .val (.dysymtab ⟨0xb, 80, 0, 0, 0, 1, 0, 0, 0, 0, 0, 0, 0, 0,
                                0, 0, 0, 0, 0, 0⟩ []),
              .val (.rawBytes LoadCmdUuid (List.replicate 24 0))],
    symtabId := some 0,
    dysymtab := some ⟨0xb, 80, 0, 0, 0, 1, 0, 0, 0, 0, 0, 0, 0, 0,
                      0, 0, 0, 0, 0, 0⟩,
    segs := [⟨LoadCmdSegment64, 72, nmPAGEZERO, 0, 4096, 0, 0, 0, 0, 0, 0, 2⟩,
             ⟨LoadCmdSegment64, 232, nmTEXT, 4096, 4096, 0, 4096, 7, 5, 1, 0, 0⟩,
             ⟨LoadCmdSegment64, 232, nmDATA, 8192, 4096, 4096, 4096, 3, 3, 1, 0, 1⟩,
             ⟨LoadCmdSegment64, 72, nmLINKEDIT, 12288, 4096, 8192, 16, 0, 0, 0, 0, 2⟩,
             ⟨LoadCmdSegment64, 72, nmDWARF, 16384, 4096, 8208, 0, 0, 0, 0, 0, 2⟩],
    store := [⟨[0x5f, 0x5f, 0x74, 0x65, 0x78, 0x74], nmTEXT, 4096, 8, 1024,
               2, 0, 0, 0, 0, 0, 0, [], []⟩,
              ⟨[0x5f, 0x5f, 0x64, 0x61, 0x74, 0x61], nmDATA, 8192, 8, 2048,
               2, 0, 0, 0, 0, 0, 0, [], []⟩],
    symHeap := [(⟨2, 24, 8192, 3, 8300, 40⟩, exSyms)] }

/-- The result of running the engine on `exBuildIn`. -/
def exOut : BuildResult := (mainBuild exBuildIn).getD default

/-- The state `buildToc` reaches on `exBuildIn`, written out: the source
`__PAGEZERO` heap entry re-anchored to `Firstsect = 0`; the four fresh
segment headers (zeroed `__TEXT`/`__DATA`, the relocated `__LINKEDIT`
at offset 4096 with the 4-byte string table, the `__DWARF` at offset
8192); the two fresh zeroed section copies at store indices 2 and 3; and
the restricted one-symbol symtab. -/
def exMid : BuildMid :=
  { magic := Magic64, bo := .littleEndian,
    segs := [⟨LoadCmdSegment64, 72, nmPAGEZERO, 0, 4096, 0, 0, 0, 0, 0, 0, 0⟩,
             ⟨LoadCmdSegment64, 232, nmTEXT, 4096, 4096, 0, 4096, 7, 5, 1, 0, 0⟩,
             ⟨LoadCmdSegment64, 232, nmDATA, 8192, 4096, 4096, 4096, 3, 3, 1, 0, 1⟩,
             ⟨LoadCmdSegment64, 72, nmLINKEDIT, 12288, 4096, 8192, 16, 0, 0, 0, 0, 2⟩,
             ⟨LoadCmdSegment64, 72, nmDWARF, 16384, 4096, 8208, 0, 0, 0, 0, 0, 2⟩,
             ⟨LoadCmdSegment64, 232, nmTEXT, 4096, 4096, 0, 0, 7, 5, 1, 0, 0⟩,
             ⟨LoadCmdSegment64, 232, nmDATA, 8192, 4096, 0, 0, 3, 3, 1, 0, 1⟩,
             ⟨LoadCmdSegment64, 72, nmLINKEDIT, 12288, 4096, 4096, 4, 0, 0, 0, 0, 2⟩,
             ⟨LoadCmdSegment64, 72, nmDWARF, 16384, 0, 8192, 0, 0, 0, 0, 0, 2⟩],
    store := [⟨[0x5f, 0x5f, 0x74, 0x65, 0x78, 0x74], nmTEXT, 4096, 8, 1024,
               2, 0, 0, 0, 0, 0, 0, [], []⟩,
              ⟨[0x5f, 0x5f, 0x64, 0x61, 0x74, 0x61], nmDATA, 8192, 8, 2048,
               2, 0, 0, 0, 0, 0, 0, [], []⟩,
              ⟨[0x5f, 0x5f, 0x74, 0x65, 0x78, 0x74], nmTEXT, 4096, 8, 0,
               2, 0, 0, 0, 0, 0, 0, [], []⟩,
              ⟨[0x5f, 0x5f, 0x64, 0x61, 0x74, 0x61], nmDATA, 8192, 8, 0,
               2, 0, 0, 0, 0, 0, 0, [], []⟩],
    symHeap := [(⟨2, 24, 8192, 3, 8300, 40⟩, exSyms),
                (⟨2, 24, 4096, 1, 4112, 4⟩, [⟨[120], 1, 2, 3, 4⟩])],
    newLoads := [.val (.rawBytes LoadCmdUuid (List.replicate 24 0)),
                 .symPtr 1, .segPtr 0, .segPtr 5, .segPtr 6, .segPtr 7,
                 .segPtr 8],
    newSections := [2, 3],
    nlists := [⟨2, 1, 2, 3, 4⟩],
    names := [[120]],
    strbase := 4112,
    newlinkeditId := 7, newdwarfId := 8, dwarfId := 4 }

/-! Theorems. -/

/-- C9: Go `cstring` is total: it returns the bytes strictly before the
first 0 byte, and when the slice holds no 0 at all it returns the whole
slice; no error path exists. -/
theorem cstring_total (b : List Nat) :
    cstring b = b.takeWhile (fun c => c ≠ 0) ∧ (0 ∉ b → cstring b = b) := by
  constructor
  · induction b with
    | nil => rfl
    | cons a t ih =>
      by_cases ha : a = 0
      · subst ha
        simp [cstring, List.indexOf_cons]
      · simp only [cstring, List.indexOf_cons] at *
        have hba : (a == 0) = false := by simpa using ha
        simp [hba, List.takeWhile_cons, ha, ih]
  · intro h0
    have : List.indexOf 0 b = b.length := List.indexOf_eq_length.mpr h0
    simp [cstring, this]

/-- Witness for C9 at concrete inputs: an embedded 0 cuts the name, a
missing terminator returns the whole slice. -/
theorem cstring_total_witness : cstring [1, 0, 2] = [1] ∧ cstring [1, 2] = [1, 2] := by
  refine ⟨((cstring_total [1, 0, 2]).1).trans (by decide), (cstring_total [1, 2]).2 (by decide)⟩

/-- ANDing with the `uint64` complement of 4095 clears the low 12 bits, so
the result is a multiple of 4096. -/
theorem and_mask4096 (n : Nat) : (n &&& (u64Mod - 4096)) % 4096 = 0 := by
  have h4 : (4096 : Nat) = 2 ^ 12 := by norm_num
  have hm : (u64Mod - 4096) &&& (2 ^ 12 - 1) = 0 := by decide
  calc (n &&& (u64Mod - 4096)) % 4096
      = (n &&& (u64Mod - 4096)) &&& (2 ^ 12 - 1) := by
        rw [h4]; exact (Nat.and_pow_two_sub_one_eq_mod _ 12).symm
    _ = n &&& ((u64Mod - 4096) &&& (2 ^ 12 - 1)) := Nat.and_assoc ..
    _ = 0 := by rw [hm, Nat.and_zero]

/-- Page-rounding with the source's `roundup` always yields a multiple of
4096. -/
theorem roundup4096_mod (x : Nat) : roundup x 4096 % 4096 = 0 := by
  unfold roundup
  have h : (u64Mod - 4096) % u64Mod = u64Mod - 4096 :=
    Nat.mod_eq_of_lt (by unfold u64Mod; norm_num)
  rw [h]
  exact and_mask4096 _

/-- C4: in the layout the engine computes, the new `__LINKEDIT` segment's
Offset is literally 4096, its Memsz and the new `__DWARF` segment's Offset
and Memsz are multiples of 4096, and the `__DWARF` Addr is exactly the new
`__LINKEDIT` Addr plus Memsz (in `uint64` arithmetic), for all inputs. -/
theorem c4_alignment (dataAddr dataMemsz stringcur dwarfFilesz : Nat) :
    (newSegLayout dataAddr dataMemsz stringcur dwarfFilesz).linkeditOffset = 4096 ∧
    (newSegLayout dataAddr dataMemsz stringcur dwarfFilesz).linkeditOffset % 4096 = 0 ∧
    (newSegLayout dataAddr dataMemsz stringcur dwarfFilesz).linkeditMemsz % 4096 = 0 ∧
    (newSegLayout dataAddr dataMemsz stringcur dwarfFilesz).dwarfOffset % 4096 = 0 ∧
    (newSegLayout dataAddr dataMemsz stringcur dwarfFilesz).dwarfMemsz % 4096 = 0 ∧
    (newSegLayout dataAddr dataMemsz stringcur dwarfFilesz).dwarfAddr =
      ((newSegLayout dataAddr dataMemsz stringcur dwarfFilesz).linkeditAddr +
       (newSegLayout dataAddr dataMemsz stringcur dwarfFilesz).linkeditMemsz) % u64Mod := by
  refine ⟨rfl, ?_, ?_, ?_, ?_, rfl⟩
  · show (4096 : Nat) % 4096 = 0
    norm_num
  · show roundup (stringcur % u32Mod) pageSize % 4096 = 0
    exact roundup4096_mod _
  · show roundup ((4096 + stringcur % u32Mod) % u64Mod) pageSize % 4096 = 0
    exact roundup4096_mod _
  · show roundup (dwarfFilesz % u64Mod) pageSize % 4096 = 0
    exact roundup4096_mod _

/-- Bytes of a `take` prefix agree with the original below the cut. -/
theorem byteAt_take (b : List Nat) (n i : Nat) (h : i < n) :
    byteAt (b.take n) i = byteAt b i := by
  unfold byteAt
  rw [List.getD_eq_getElem?_getD, List.getD_eq_getElem?_getD, List.getElem?_take_of_lt h]

/-- The big-endian 64-bit value at position 4 of the 12-byte read equals
the one read directly from the section data. -/
theorem beU64At_take12 (d : List Nat) : beU64At (d.take 12) 4 = beU64At d 4 := by
  unfold beU64At beU32At
  rw [byteAt_take d 12 4 (by norm_num), byteAt_take d 12 5 (by norm_num),
      byteAt_take d 12 6 (by norm_num), byteAt_take d 12 7 (by norm_num),
      byteAt_take d 12 8 (by norm_num), byteAt_take d 12 9 (by norm_num),
      byteAt_take d 12 10 (by norm_num), byteAt_take d 12 11 (by norm_num)]

/-- C3 (amended): `Section.UncompressedSize` returns the raw size for
non-`__z` names; for `__z` names with a readable 12-byte ZLIB header it
returns `(12 + N) mod 2^64` where `N` is the big-endian 64-bit declared
length (equal to `12 + N` unless `N ≥ 2^64 - 12`, where the `uint64` sum
wraps); the raw size when the 12 bytes read are not ZLIB-tagged; and a
panic (`none`) when fewer than 12 bytes can be read. -/
theorem c3_uncompressed_amended (s : Sectn) :
    (nameStartsZ s.name = false → s.uncompressedSize = some s.size) ∧
    (nameStartsZ s.name = true → 12 ≤ s.size → 12 ≤ s.data.length →
      s.data.take 4 = zlibTag →
      s.uncompressedSize = some ((12 + beU64At s.data 4) % u64Mod)) ∧
    (nameStartsZ s.name = true → 12 ≤ s.size → 12 ≤ s.data.length →
      s.data.take 4 ≠ zlibTag → s.uncompressedSize = some s.size) ∧
    (nameStartsZ s.name = true → (s.size < 12 ∨ s.data.length < 12) →
      s.uncompressedSize = none) := by
  have htt : (s.data.take 12).take 4 = s.data.take 4 := by
    rw [List.take_take]; norm_num
  refine ⟨?_, ?_, ?_, ?_⟩
  · intro h
    simp [Sectn.uncompressedSize, h]
  · intro h h1 h2 h3
    simp [Sectn.uncompressedSize, sectionRead12, h, h1, h2, htt, h3, beU64At_take12]
  · intro h h1 h2 h3
    simp [Sectn.uncompressedSize, sectionRead12, h, h1, h2, htt, h3]
  · intro h h1
    have hno : ¬ (12 ≤ s.size ∧ 12 ≤ s.data.length) := by omega
    simp [Sectn.uncompressedSize, sectionRead12, h, hno]

/-- Witness for C3's amended statement: on `zSmallSection` (declared
length 5) the result is `(12 + 5) mod 2^64`. -/
theorem c3_uncompressed_witness :
    zSmallSection.uncompressedSize = some ((12 + beU64At zSmallSection.data 4) % u64Mod) :=
  (c3_uncompressed_amended zSmallSection).2.1 (by decide) (by decide) (by decide) (by decide)

/-- Counterexample to C3 as stated: with a ZLIB header declaring
`N = 2^64 - 1`, the code returns 11, not `12 + N` (the `uint64` addition
wraps). -/
theorem c3_counterexample :
    zWrapSection.uncompressedSize = some 11 ∧
    beU64At zWrapSection.data 4 = 2 ^ 64 - 1 ∧
    (11 : Nat) ≠ 12 + (2 ^ 64 - 1) := by
  refine ⟨by decide, by decide, by decide⟩

/-- Clearing bit 0 of a 32-bit value with `&^ 1` (an AND with
`0xFFFFFFFE`) yields twice its half. -/
theorem andNot1_eq (x : Nat) (h : x < 2 ^ 32) : x &&& 0xFFFFFFFE = 2 * (x / 2) := by
  have h2 : (x &&& 0xFFFFFFFE) % 2 = 0 := by
    rw [Nat.mod_two_eq_zero_iff_testBit_zero, Nat.testBit_and]
    have hb : Nat.testBit 0xFFFFFFFE 0 = false := by decide
    simp [hb]
  have h3 : (x &&& 0xFFFFFFFE) / 2 = x / 2 := by
    rw [Nat.and_div_two]
    have he : (0xFFFFFFFE : Nat) / 2 = 2 ^ 31 - 1 := by norm_num
    rw [he, Nat.and_pow_two_sub_one_eq_mod]
    exact Nat.mod_eq_of_lt (by omega)
  omega

/-- The switch guard `Magic32 &^ 1 == x &^ 1` holds exactly for the two
accepted magic values. -/
theorem magicCond_iff (x : Nat) (h : x < 2 ^ 32) :
    (Magic32 &&& 0xFFFFFFFE = x &&& 0xFFFFFFFE) ↔ (x = Magic32 ∨ x = Magic64) := by
  rw [andNot1_eq x h]
  have hc : Magic32 &&& 0xFFFFFFFE = 0xfeedface := by decide
  rw [hc]
  unfold Magic32 Magic64
  omega

/-- C5: for every 4-byte prefix, a big-endian reading equal to one of the
two accepted magics selects big-endian with that magic; a little-endian
reading equal to one of them selects little-endian; any other prefix
produces exactly `FormatError` at offset 0 with the invalid-magic
message. -/
theorem c5_magic_detection (b0 b1 b2 b3 : Nat)
    (h0 : b0 < 256) (h1 : b1 < 256) (h2 : b2 < 256) (h3 : b3 < 256) :
    (beWord b0 b1 b2 b3 = Magic32 ∨ beWord b0 b1 b2 b3 = Magic64 →
      detectMagic b0 b1 b2 b3 = .ok (.bigEndian, beWord b0 b1 b2 b3)) ∧
    (leWord b0 b1 b2 b3 = Magic32 ∨ leWord b0 b1 b2 b3 = Magic64 →
      detectMagic b0 b1 b2 b3 = .ok (.littleEndian, leWord b0 b1 b2 b3)) ∧
    (¬(beWord b0 b1 b2 b3 = Magic32 ∨ beWord b0 b1 b2 b3 = Magic64) →
     ¬(leWord b0 b1 b2 b3 = Magic32 ∨ leWord b0 b1 b2 b3 = Magic64) →
      detectMagic b0 b1 b2 b3 = .error ⟨0, "invalid magic number", none⟩) := by
  have hbe : beWord b0 b1 b2 b3 < 2 ^ 32 := by unfold beWord; omega
  have hle : leWord b0 b1 b2 b3 < 2 ^ 32 := by unfold leWord; omega
  refine ⟨?_, ?_, ?_⟩
  · intro hm
    simp only [detectMagic]
    rw [if_pos ((magicCond_iff _ hbe).mpr hm)]
  · intro hm
    have hbn : ¬(beWord b0 b1 b2 b3 = Magic32 ∨ beWord b0 b1 b2 b3 = Magic64) := by
      unfold beWord leWord Magic32 Magic64 at *
      omega
    simp only [detectMagic]
    rw [if_neg (fun hc => hbn ((magicCond_iff _ hbe).mp hc)),
        if_pos ((magicCond_iff _ hle).mpr hm)]
  · intro hbn hln
    simp only [detectMagic]
    rw [if_neg (fun hc => hbn ((magicCond_iff _ hbe).mp hc)),
        if_neg (fun hc => hln ((magicCond_iff _ hle).mp hc))]

/-- Witness for C5 at the concrete big-endian 64-bit prefix
`fe ed fa cf`. -/
theorem c5_magic_witness : detectMagic 0xfe 0xed 0xfa 0xcf = .ok (.bigEndian, 0xfeedfacf) :=
  (c5_magic_detection 0xfe 0xed 0xfa 0xcf (by norm_num) (by norm_num) (by norm_num)
    (by norm_num)).1 (Or.inr (by decide))

/-- A successful `parseOne` step certifies the final size assertion: the
returned load's computed size equals the record's declared `siz`, the
remaining block is the tail past `siz`, the offset advances by `siz`, and
the prologue guards held. -/
theorem parseOne_ok_spec (file : List Nat) (bo : ByteOrder) (magic : Nat)
    (secs : List Sectn) (dat : List Nat) (off : Nat) (l : Load) (s2 : List Sectn)
    (rest : List Nat) (off2 : Nat)
    (h : parseOne file bo magic secs dat off = .ok (l, s2, rest, off2)) :
    Load.loadSize magic l = bo.u32At dat 4 ∧ rest = dat.drop (bo.u32At dat 4) ∧
    off2 = off + bo.u32At dat 4 ∧ 8 ≤ dat.length ∧ 8 ≤ bo.u32At dat 4 ∧
    bo.u32At dat 4 ≤ dat.length := by
  simp only [parseOne] at h
  split at h
  · exact absurd h (by simp)
  · rename_i hd
    split at h
    · exact absurd h (by simp)
    · rename_i hs
      split at h
      · exact absurd h (by simp)
      · rename_i l' s2' hpb
        split at h
        · exact absurd h (by simp)
        · rename_i hsz
          simp only [Except.ok.injEq, Prod.mk.injEq] at h
          obtain ⟨h1, h2, h3, h4⟩ := h
          subst h1; subst h2; subst h3; subst h4
          push_neg at hs hsz hd
          exact ⟨hsz, rfl, rfl, hd, hs.1, hs.2⟩

/-- A successful `parseLoads` run returns exactly `n` loads, each of whose
computed sizes equals the corresponding declared size in the block's size
chain (and the chain has length `n`). -/
theorem parseLoads_ok_sizes (file : List Nat) (bo : ByteOrder) (magic : Nat) :
    ∀ (n : Nat) (secs : List Sectn) (dat : List Nat) (off : Nat)
      (loads : List Load) (secs2 : List Sectn),
      parseLoads file bo magic n secs dat off = .ok (loads, secs2) →
      loads.length = n ∧ (cmdSizes bo n dat).length = n ∧
      ∀ i : Nat, Load.loadSize magic (loads.getD i default) = (cmdSizes bo n dat).getD i 0 := by
  intro n
  induction n with
  | zero =>
    intro secs dat off loads secs2 h
    simp only [parseLoads, Except.ok.injEq, Prod.mk.injEq] at h
    obtain ⟨h1, _⟩ := h
    subst h1
    refine ⟨rfl, rfl, fun i => ?_⟩
    simp [cmdSizes, Load.loadSize]
  | succ n ih =>
    intro secs dat off loads secs2 h
    simp only [parseLoads] at h
    split at h
    · exact absurd h (by simp)
    · rename_i l s2 rest off2 hone
      split at h
      · exact absurd h (by simp)
      · rename_i ls s3 hrec
        simp only [Except.ok.injEq, Prod.mk.injEq] at h
        obtain ⟨h1, h2⟩ := h
        subst h1; subst h2
        obtain ⟨hls, hrest, _, hd, hs8, hsle⟩ :=
          parseOne_ok_spec file bo magic secs dat off l s2 rest off2 hone
        subst hrest
        obtain ⟨ihl, ihcl, ihs⟩ := ih s2 (dat.drop (bo.u32At dat 4)) off2 ls s3 hrec
        have hcs : cmdSizes bo (n+1) dat =
            bo.u32At dat 4 :: cmdSizes bo n (dat.drop (bo.u32At dat 4)) := by
          simp only [cmdSizes]
          rw [if_neg (by omega), if_neg (by omega)]
        refine ⟨by simp [ihl], by simp [hcs, ihcl], fun i => ?_⟩
        cases i with
        | zero => simpa [hcs] using hls
        | succ j => simpa [hcs] using ihs j

/-- C6: whenever `NewFile` returns a `File`, every parsed load's computed
wire size equals the self-declared length of its command record; the size
assertion at the end of each loop iteration panics otherwise, so no `File`
with a mismatched load is ever returned. -/
theorem c6_loadsize_assertion (file : List Nat) (f : MachoFile)
    (h : newFile file = .ok f) :
    f.loads.length = (fileCmdSizes file).length ∧
    ∀ i : Nat, Load.loadSize f.magic (f.loads.getD i default) = (fileCmdSizes file).getD i 0 := by
  simp only [newFile] at h
  simp only [fileCmdSizes]
  split at h
  · exact absurd h (by simp)
  · rename_i ident hident
    split at h
    · exact absurd h (by simp)
    · rename_i bo mg hdet
      split at h
      · exact absurd h (by simp)
      · rename_i h28
        rw [if_neg h28]
        split at h
        · exact absurd h (by simp)
        · rename_i dat hdat
          split at h
          · exact absurd h (by simp)
          · rename_i loads sections hloads
            simp only [Except.ok.injEq] at h
            subst h
            obtain ⟨hl, hcl, hs⟩ := parseLoads_ok_sizes file bo (bo.u32At file 0)
              (bo.u32At file 16) [] dat
              (if bo.u32At file 0 = Magic64 then 32 else 28) loads sections hloads
            exact ⟨by rw [hl, hcl], hs⟩

/-- Witness for C6: the minimal input `exFileC6` parses to `exParsedC6`,
and its single load's computed size matches the declared size 8. -/
theorem c6_loadsize_witness :
    Load.loadSize exParsedC6.magic (exParsedC6.loads.getD 0 default) =
      (fileCmdSizes exFileC6).getD 0 0 :=
  (c6_loadsize_assertion exFileC6 exParsedC6 (by rfl)).2 0

/-- `pushSection` can only fail with a propagated read error. -/
theorem pushSection_error (file : List Nat) (bo : ByteOrder) (sh : Sectn)
    (secs : List Sectn) (e : ParseErr)
    (h : pushSection file bo sh secs = .error e) : e = .ioRead := by
  simp only [pushSection] at h
  split at h
  · split at h
    · simp only [Except.error.injEq] at h
      exact h.symm
    · exact absurd h (by simp)
  · exact absurd h (by simp)

/-- The 32-bit section loop can only fail with a read error. -/
theorem parseSections32_error (file : List Nat) (bo : ByteOrder) (cmddat : List Nat) :
    ∀ (n pos : Nat) (secs : List Sectn) (e : ParseErr),
      parseSections32 file bo cmddat n pos secs = .error e → e = .ioRead := by
  intro n
  induction n with
  | zero =>
    intro pos secs e h
    exact absurd h (by simp [parseSections32])
  | succ n ih =>
    intro pos secs e h
    simp only [parseSections32] at h
    split at h
    · simp only [Except.error.injEq] at h
      exact h.symm
    · split at h
      · rename_i e' hpush
        simp only [Except.error.injEq] at h
        subst h
        exact pushSection_error _ _ _ _ _ hpush
      · exact ih _ _ _ h

/-- The 64-bit section loop can only fail with a read error. -/
theorem parseSections64_error (file : List Nat) (bo : ByteOrder) (cmddat : List Nat) :
    ∀ (n pos : Nat) (secs : List Sectn) (e : ParseErr),
      parseSections64 file bo cmddat n pos secs = .error e → e = .ioRead := by
  intro n
  induction n with
  | zero =>
    intro pos secs e h
    exact absurd h (by simp [parseSections64])
  | succ n ih =>
    intro pos secs e h
    simp only [parseSections64] at h
    split at h
    · simp only [Except.error.injEq] at h
      exact h.symm
    · split at h
      · rename_i e' hpush
        simp only [Except.error.injEq] at h
        subst h
        exact pushSection_error _ _ _ _ _ hpush
      · exact ih _ _ _ h

/-- A `FormatError` escaping the rpath arm is the invalid-path error at
the caller-supplied offset. -/
theorem parseRpathArm_format (bo : ByteOrder) (cmddat : List Nat) (offA : Nat)
    (secs : List Sectn) (e : FormatErr)
    (h : parseRpathArm bo cmddat offA secs = .error (.format e)) :
    e.off = offA ∧ e.msg = "invalid path in rpath command" := by
  simp only [parseRpathArm] at h
  repeat' split at h
  all_goals try injection h with h2
  all_goals try injection h
  all_goals cases h2
  exact ⟨rfl, rfl⟩

/-- A `FormatError` escaping the dylinker arm is the invalid-name error at
the caller-supplied offset. -/
theorem parseDylinkerArm_format (bo : ByteOrder) (cmd : Nat) (cmddat : List Nat)
    (offA : Nat) (secs : List Sectn) (e : FormatErr)
    (h : parseDylinkerArm bo cmd cmddat offA secs = .error (.format e)) :
    e.off = offA ∧ e.msg = "invalid name in dynamic linker command" := by
  simp only [parseDylinkerArm] at h
  repeat' split at h
  all_goals try injection h with h2
  all_goals try injection h
  all_goals cases h2
  exact ⟨rfl, rfl⟩

/-- A `FormatError` escaping the dylib arm is the invalid-name error at
the caller-supplied offset. -/
theorem parseDylibArm_format (bo : ByteOrder) (cmddat : List Nat)
    (offA : Nat) (secs : List Sectn) (e : FormatErr)
    (h : parseDylibArm bo cmddat offA secs = .error (.format e)) :
    e.off = offA ∧ e.msg = "invalid name in dynamic library command" := by
  simp only [parseDylibArm] at h
  repeat' split at h
  all_goals try injection h with h2
  all_goals try injection h
  all_goals cases h2
  exact ⟨rfl, rfl⟩

/-- No `FormatError` escapes the symtab arm: the nil-pointer panic masks
the symbol-name errors, and the other failures are read errors. -/
theorem parseSymtabArm_format (file : List Nat) (bo : ByteOrder) (magic cmd : Nat)
    (cmddat : List Nat) (offA : Nat) (secs : List Sectn) (e : FormatErr)
    (h : parseSymtabArm file bo magic cmd cmddat offA secs = .error (.format e)) :
    False := by
  simp only [parseSymtabArm] at h
  repeat' split at h
  all_goals try injection h with h2
  all_goals try injection h
  all_goals cases h2

/-- No `FormatError` escapes the dysymtab arm. -/
theorem parseDysymtabArm_format (file : List Nat) (bo : ByteOrder) (cmd : Nat)
    (cmddat : List Nat) (secs : List Sectn) (e : FormatErr)
    (h : parseDysymtabArm file bo cmd cmddat secs = .error (.format e)) : False := by
  simp only [parseDysymtabArm] at h
  repeat' split at h
  all_goals try injection h with h2
  all_goals try injection h
  all_goals cases h2

/-- No `FormatError` escapes the 32-bit segment arm (the section loop only
raises read errors). -/
theorem parseSegment32Arm_format (file : List Nat) (bo : ByteOrder) (cmd siz : Nat)
    (cmddat : List Nat) (secs : List Sectn) (e : FormatErr)
    (h : parseSegment32Arm file bo cmd siz cmddat secs = .error (.format e)) : False := by
  simp only [parseSegment32Arm] at h
  repeat' split at h
  all_goals try injection h with h2
  all_goals try injection h
  all_goals cases h2
  rename_i hsec
  exact absurd (parseSections32_error file bo cmddat _ _ _ _ hsec) (by simp)

/-- No `FormatError` escapes the 64-bit segment arm. -/
theorem parseSegment64Arm_format (file : List Nat) (bo : ByteOrder) (cmd siz : Nat)
    (cmddat : List Nat) (secs : List Sectn) (e : FormatErr)
    (h : parseSegment64Arm file bo cmd siz cmddat secs = .error (.format e)) : False := by
  simp only [parseSegment64Arm] at h
  repeat' split at h
  all_goals try injection h with h2
  all_goals try injection h
  all_goals cases h2
  rename_i hsec
  exact absurd (parseSections64_error file bo cmddat _ _ _ _ hsec) (by simp)

/-- No `FormatError` escapes the `LinkEditData` arm. -/
theorem parseLinkEditDataArm_format (bo : ByteOrder) (cmd : Nat) (cmddat : List Nat)
    (secs : List Sectn) (e : FormatErr)
    (h : parseLinkEditDataArm bo cmd cmddat secs = .error (.format e)) : False := by
  simp only [parseLinkEditDataArm] at h
  repeat' split at h
  all_goals try injection h with h2
  all_goals try injection h
  all_goals cases h2

/-- No `FormatError` escapes the `EncryptionInfo` arm. -/
theorem parseEncryptionInfoArm_format (bo : ByteOrder) (cmd : Nat) (cmddat : List Nat)
    (secs : List Sectn) (e : FormatErr)
    (h : parseEncryptionInfoArm bo cmd cmddat secs = .error (.format e)) : False := by
  simp only [parseEncryptionInfoArm] at h
  repeat' split at h
  all_goals try injection h with h2
  all_goals try injection h
  all_goals cases h2

/-- No `FormatError` escapes the `DyldInfo` arm. -/
theorem parseDyldInfoArm_format (bo : ByteOrder) (cmd : Nat) (cmddat : List Nat)
    (secs : List Sectn) (e : FormatErr)
    (h : parseDyldInfoArm bo cmd cmddat secs = .error (.format e)) : False := by
  simp only [parseDyldInfoArm] at h
  repeat' split at h
  all_goals try injection h with h2
  all_goals try injection h
  all_goals cases h2

/-- Every `FormatError` that escapes the per-opcode switch is one of the
three name-offset errors, and it carries the offset the caller passed,
namely the file offset just past the command's record. -/
theorem parseBranch_format (file : List Nat) (bo : ByteOrder) (magic : Nat)
    (secs : List Sectn) (cmd siz : Nat) (cmddat : List Nat) (offA : Nat) (e : FormatErr)
    (h : parseBranch file bo magic secs cmd siz cmddat offA = .error (.format e)) :
    e.off = offA ∧
    (e.msg = "invalid path in rpath command" ∨
     e.msg = "invalid name in dynamic linker command" ∨
     e.msg = "invalid name in dynamic library command") := by
  simp only [parseBranch] at h
  repeat' split at h
  all_goals first
    | injection h
    | exact (parseSymtabArm_format _ _ _ _ _ _ _ _ h).elim
    | exact (parseDysymtabArm_format _ _ _ _ _ _ h).elim
    | exact (parseSegment32Arm_format _ _ _ _ _ _ _ h).elim
    | exact (parseSegment64Arm_format _ _ _ _ _ _ _ h).elim
    | exact (parseLinkEditDataArm_format _ _ _ _ _ h).elim
    | exact (parseEncryptionInfoArm_format _ _ _ _ _ h).elim
    | exact (parseDyldInfoArm_format _ _ _ _ _ h).elim
    | (have hr := parseRpathArm_format _ _ _ _ _ h
       exact ⟨hr.1, Or.inl hr.2⟩)
    | (have hr := parseDylinkerArm_format _ _ _ _ _ _ h
       exact ⟨hr.1, Or.inr (Or.inl hr.2)⟩)
    | (have hr := parseDylibArm_format _ _ _ _ _ h
       exact ⟨hr.1, Or.inr (Or.inr hr.2)⟩)

/-- C7 (amended): a `FormatError` produced while parsing one load command
carries either the offset of that command's record (for the
command-block-too-small and invalid-command-block-size checks) or the
offset just past the record, i.e. the record's offset plus its declared
size (for the rpath / dylinker / dylib name errors, because the source
advances `offset` before the switch); symbol-table name errors never
surface as `FormatError`s, being masked by a nil-pointer panic. -/
theorem c7_format_offset_amended (file : List Nat) (bo : ByteOrder) (magic : Nat)
    (secs : List Sectn) (dat : List Nat) (off : Nat) (e : FormatErr)
    (h : parseOne file bo magic secs dat off = .error (.format e)) :
    (e.off = off ∧
      (e.msg = "command block too small" ∨ e.msg = "invalid command block size")) ∨
    (e.off = off + bo.u32At dat 4 ∧
      (e.msg = "invalid path in rpath command" ∨
       e.msg = "invalid name in dynamic linker command" ∨
       e.msg = "invalid name in dynamic library command")) := by
  simp only [parseOne] at h
  split at h
  · injection h with h2
    cases h2
    exact Or.inl ⟨rfl, Or.inl rfl⟩
  · split at h
    · injection h with h2
      cases h2
      exact Or.inl ⟨rfl, Or.inr rfl⟩
    · split at h
      · rename_i e' hpb
        injection h with h2
        cases h2
        exact Or.inr (parseBranch_format _ _ _ _ _ _ _ _ _ hpb)
      · split at h
        · injection h with h2
          cases h2
        · injection h

/-- Witness for the amended C7 at the concrete rpath command of
`exFileC7`: its record sits at offset 28 with declared size 12, and the
invalid-path error carries 40 = 28 + 12. -/
theorem c7_format_offset_witness :
    ((40 : Nat) = 28 ∧
      ("invalid path in rpath command" = "command block too small" ∨
       "invalid path in rpath command" = "invalid command block size")) ∨
    ((40 : Nat) = 28 + ByteOrder.u32At .littleEndian
        [0x1c, 0, 0, 0x80, 12, 0, 0, 0, 200, 0, 0, 0] 4 ∧
      ("invalid path in rpath command" = "invalid path in rpath command" ∨
       "invalid path in rpath command" = "invalid name in dynamic linker command" ∨
       "invalid path in rpath command" = "invalid name in dynamic library command")) :=
  c7_format_offset_amended exFileC7 .littleEndian 0xfeedface []
    [0x1c, 0, 0, 0x80, 12, 0, 0, 0, 200, 0, 0, 0] 28
    ⟨40, "invalid path in rpath command", some 200⟩ (by rfl)

/-- Counterexample to C7 as stated: on `exFileC7`, the rpath command's
record is at file offset 28 (the load-command block of this 32-bit file
starts there and this is its first command), yet the `FormatError` for its
out-of-range name offset carries offset 40, not 28. -/
theorem c7_counterexample :
    newFile exFileC7 = .error (.format ⟨40, "invalid path in rpath command", some 200⟩) ∧
    (40 : Nat) ≠ 28 := by
  exact ⟨by rfl, by norm_num⟩

/-- The workhorse description of the symbol-restriction loop: starting at
loop index `i` with cursor `cur`, `k` iterations keep exactly the source
symbols `syms[iext + i ..]` in order, record their names, and emit wire
`Nlist64`s whose fields copy the source symbol and whose name offset is
the cursor value `cur` plus the byte distance of the preceding names. -/
theorem synthSymsAux_spec (syms : List Symbol) (iext : Nat) :
    ∀ (k i cur : Nat), cur < u32Mod → i + k + iext ≤ syms.length → syms.length ≤ u32Mod →
      (synthSymsAux syms iext i cur k).1.length = k ∧
      (synthSymsAux syms iext i cur k).2.1.length = k ∧
      (synthSymsAux syms iext i cur k).2.2.1.length = k ∧
      (∀ j, j < k →
        (synthSymsAux syms iext i cur k).1.getD j default =
          syms.getD (iext + (i + j)) default) ∧
      (∀ j, j < k →
        (synthSymsAux syms iext i cur k).2.2.1.getD j [] =
          (syms.getD (iext + (i + j)) default).name) ∧
      (∀ j, j < k →
        (synthSymsAux syms iext i cur k).2.1.getD j default =
          { name := (cur + lensum syms iext i j) % u32Mod,
            typ := (syms.getD (iext + (i + j)) default).typ,
            sect := (syms.getD (iext + (i + j)) default).sect,
            desc := (syms.getD (iext + (i + j)) default).desc,
            value := (syms.getD (iext + (i + j)) default).value }) ∧
      (synthSymsAux syms iext i cur k).2.2.2 = (cur + lensum syms iext i k) % u32Mod := by
  intro k
  induction k with
  | zero =>
    intro i cur hcur hb hl
    refine ⟨rfl, rfl, rfl, fun j hj => absurd hj (by omega),
      fun j hj => absurd hj (by omega), fun j hj => absurd hj (by omega), ?_⟩
    simp [synthSymsAux, lensum, Nat.mod_eq_of_lt hcur]
  | succ k ih =>
    intro i cur hcur hb hl
    have hm : u32Mod = 4294967296 := by norm_num [u32Mod]
    have hii : (i + iext) % u32Mod = iext + i := by
      rw [hm]
      rw [hm] at hl
      omega
    have hcur2 : (cur + ((syms.getD (iext + i) default).name.length % u32Mod + 1))
        % u32Mod < u32Mod := Nat.mod_lt _ (by rw [hm]; norm_num)
    obtain ⟨ih1, ih2, ih3, ih4, ih5, ih6, ih7⟩ :=
      ih (i+1)
        ((cur + ((syms.getD (iext + i) default).name.length % u32Mod + 1)) % u32Mod)
        hcur2 (by omega) hl
    have harith : ∀ S : Nat,
        (((cur + ((syms.getD (iext + i) default).name.length % u32Mod + 1)) % u32Mod) + S)
          % u32Mod =
        (cur + (((syms.getD (iext + i) default).name.length + 1) + S)) % u32Mod := by
      intro S
      rw [hm]
      omega
    have hidx : ∀ j : Nat, iext + (i + 1 + j) = iext + (i + (j + 1)) := by omega
    refine ⟨?_, ?_, ?_, ?_, ?_, ?_, ?_⟩
    · simp only [synthSymsAux, hii]
      simpa using ih1
    · simp only [synthSymsAux, hii]
      simpa using ih2
    · simp only [synthSymsAux, hii]
      simpa using ih3
    · intro j hj
      match j with
      | 0 =>
        simp only [synthSymsAux, hii, List.getD_cons_zero, Nat.add_zero]
      | j'+1 =>
        simp only [synthSymsAux, hii, List.getD_cons_succ]
        rw [← hidx j']
        exact ih4 j' (by omega)
    · intro j hj
      match j with
      | 0 =>
        simp only [synthSymsAux, hii, List.getD_cons_zero, Nat.add_zero]
      | j'+1 =>
        simp only [synthSymsAux, hii, List.getD_cons_succ]
        rw [← hidx j']
        exact ih5 j' (by omega)
    · intro j hj
      match j with
      | 0 =>
        simp only [synthSymsAux, hii, List.getD_cons_zero, lensum, Nat.add_zero,
          Nat.mod_eq_of_lt hcur]
      | j'+1 =>
        simp only [synthSymsAux, hii, List.getD_cons_succ]
        rw [ih6 j' (by omega)]
        simp only [lensum]
        rw [← hidx j', harith]
    · simp only [synthSymsAux, hii]
      rw [ih7]
      simp only [lensum]
      rw [harith]

/-- C1: the synthesised symtab holds exactly `Nextdefsym` symbols, namely
the source symbols at indices `Iextdefsym ..` in order, and each emitted
wire `Nlist64` copies the source symbol's type, section, descriptor and
value, replacing only the name by the running string-table cursor. -/
theorem c1_symbol_restriction (syms : List Symbol) (iext n : Nat)
    (hbound : iext + n ≤ syms.length) (hlen : syms.length ≤ u32Mod) :
    (synthSymtab syms iext n).1.length = n ∧
    (∀ i, i < n →
      (synthSymtab syms iext n).1.getD i default = syms.getD (iext + i) default) ∧
    (∀ i, i < n →
      (synthSymtab syms iext n).2.1.getD i default =
        { name := (2 + lensum syms iext 0 i) % u32Mod,
          typ := (syms.getD (iext + i) default).typ,
          sect := (syms.getD (iext + i) default).sect,
          desc := (syms.getD (iext + i) default).desc,
          value := (syms.getD (iext + i) default).value }) := by
  obtain ⟨h1, h2, h3, h4, h5, h6, h7⟩ :=
    synthSymsAux_spec syms iext n 0 2 (by norm_num [u32Mod]) (by omega) hlen
  refine ⟨h1, fun i hi => ?_, fun i hi => ?_⟩
  · simpa using h4 i hi
  · simpa using h6 i hi

/-- Witness for C1 on `exSyms` with `Iextdefsym = 1`, `Nextdefsym = 2`:
the two retained symbols and the second Nlist's cursor value 6. -/
theorem c1_symbol_witness :
    (synthSymtab exSyms 1 2).1.length = 2 ∧
    (synthSymtab exSyms 1 2).1.getD 0 default = exSyms.getD 1 default ∧
    (synthSymtab exSyms 1 2).2.1.getD 1 default =
      { name := (2 + lensum exSyms 1 0 1) % u32Mod,
        typ := (exSyms.getD 2 default).typ, sect := (exSyms.getD 2 default).sect,
        desc := (exSyms.getD 2 default).desc, value := (exSyms.getD 2 default).value } := by
  obtain ⟨h1, h2, h3⟩ := c1_symbol_restriction exSyms 1 2 (by norm_num [exSyms])
    (by norm_num [exSyms, u32Mod])
  exact ⟨h1, h2 0 (by norm_num), h3 1 (by norm_num)⟩

/-- Splicing inside the buffer preserves its length. -/
theorem splice_length (buf : List Nat) (i : Nat) (bs : List Nat)
    (h : i + bs.length ≤ buf.length) : (splice buf i bs).length = buf.length := by
  simp [splice, List.length_take]
  omega

/-- An in-bounds single store is a one-byte splice. -/
theorem setByte_splice (buf : List Nat) (i v : Nat) (h : i < buf.length) :
    setByte buf i v = some (splice buf i [v]) := by
  simp only [setByte, if_pos h, splice]
  rw [List.set_eq_take_append_cons_drop]
  simp [h]

/-- Two adjacent splices amount to one splice of the concatenation. -/
theorem splice_splice (buf : List Nat) (i : Nat) (as bs : List Nat)
    (h : i + as.length + bs.length ≤ buf.length) :
    splice (splice buf i as) (i + as.length) bs = splice buf i (as ++ bs) := by
  have hti : (buf.take i).length = i := by
    simp [List.length_take]
    omega
  simp only [splice, List.append_assoc]
  rw [List.take_append_eq_append_take, List.drop_append_eq_append_drop]
  rw [List.take_take, hti]
  have h1 : min (i + as.length) i = i := by omega
  rw [h1]
  have h2 : i + as.length - i = as.length := by omega
  have h3 : (buf.take i).drop (i + as.length + bs.length) = [] :=
    List.drop_eq_nil_of_le (by omega)
  rw [h2, h3]
  have h4 : (as ++ buf.drop (i + as.length)).take as.length = as :=
    List.take_left as (buf.drop (i + as.length))
  rw [h4]
  have h5 : i + as.length + bs.length - i = as.length + bs.length := by omega
  rw [h5]
  rw [List.drop_append_eq_append_drop]
  have h6 : as.drop (as.length + bs.length) = [] := List.drop_eq_nil_of_le (by omega)
  have h7 : as.length + bs.length - as.length = bs.length := by omega
  rw [h6, h7]
  simp only [List.nil_append, List.drop_drop, List.append_assoc, List.length_append]
  rw [Nat.add_assoc]

/-- The per-name write loop produces a splice of the null-terminated name
and leaves the cursor just past it. -/
theorem writeStr_splice (s : List Nat) : ∀ (buf : List Nat) (off : Nat),
    off + s.length + 1 ≤ buf.length → off + s.length + 1 ≤ u32Mod →
    writeStr buf off s = some (splice buf off (s ++ [0]), (off + s.length + 1) % u32Mod) := by
  induction s with
  | nil =>
    intro buf off h1 h2
    simp only [writeStr]
    rw [setByte_splice buf off 0 (by simp at h1; omega)]
    simp
  | cons c cs ih =>
    intro buf off h1 h2
    simp only [List.length_cons] at h1 h2
    simp only [writeStr]
    rw [setByte_splice buf off c (by omega)]
    have hoff1 : (off + 1) % u32Mod = off + 1 :=
      Nat.mod_eq_of_lt (by have hm : u32Mod = 4294967296 := by norm_num [u32Mod]
                           rw [hm] at h2 ⊢; omega)
    have hlen : (splice buf off [c]).length = buf.length :=
      splice_length buf off [c] (by simp; omega)
    show writeStr (splice buf off [c]) ((off + 1) % u32Mod) cs =
      some (splice buf off (c :: cs ++ [0]), (off + (c :: cs).length + 1) % u32Mod)
    rw [hoff1]
    rw [ih (splice buf off [c]) (off + 1) (by rw [hlen]; omega) (by omega)]
    have hsp : splice (splice buf off [c]) (off + 1) (cs ++ [0]) =
        splice buf off (c :: (cs ++ [0])) := by
      have := splice_splice buf off [c] (cs ++ [0]) (by simp; omega)
      simpa using this
    rw [hsp]
    have harg : off + 1 + cs.length + 1 = off + (cs.length + 1) + 1 := by omega
    rw [harg]
    simp

/-- The outer name loop writes all the null-terminated names in one
splice. -/
theorem writeStrs_splice : ∀ (strs : List (List Nat)) (buf : List Nat) (off : Nat),
    off + (joinPlus strs).length ≤ buf.length → off + (joinPlus strs).length < u32Mod →
    writeStrs buf off strs = some (splice buf off (joinPlus strs)) := by
  intro strs
  induction strs with
  | nil =>
    intro buf off h1 h2
    simp [writeStrs, joinPlus, splice]
  | cons s ss ih =>
    intro buf off h1 h2
    have hjp : joinPlus (s :: ss) = (s ++ [0]) ++ joinPlus ss := by
      simp [joinPlus]
    rw [hjp] at h1 h2 ⊢
    simp only [List.length_append, List.length_cons, List.length_nil] at h1 h2
    simp only [writeStrs]
    rw [writeStr_splice s buf off (by omega) (by omega)]
    show writeStrs (splice buf off (s ++ [0])) ((off + s.length + 1) % u32Mod) ss =
      some (splice buf off ((s ++ [0]) ++ joinPlus ss))
    have hoff : (off + s.length + 1) % u32Mod = off + s.length + 1 :=
      Nat.mod_eq_of_lt (by omega)
    rw [hoff]
    have hlen : (splice buf off (s ++ [0])).length = buf.length :=
      splice_length buf off (s ++ [0]) (by simp; omega)
    rw [ih (splice buf off (s ++ [0])) (off + s.length + 1) (by rw [hlen]; omega) (by omega)]
    have := splice_splice buf off (s ++ [0]) (joinPlus ss) (by simp; omega)
    have harg : off + (s ++ [0]).length = off + s.length + 1 := by
      simp
      omega
    rw [harg] at this
    rw [this]

/-- The whole string-table serialisation is one splice of the sentinel
bytes followed by the null-terminated names. -/
theorem writeStringTable_splice (strs : List (List Nat)) (buf : List Nat) (base : Nat)
    (h1 : base + 2 + (joinPlus strs).length ≤ buf.length)
    (h2 : base + 2 + (joinPlus strs).length < u32Mod) :
    writeStringTable buf base strs = some (splice buf base (strTableBytes strs)) := by
  simp only [writeStringTable]
  rw [setByte_splice buf base 0x20 (by omega)]
  have hb1 : (base + 1) % u32Mod = base + 1 := Nat.mod_eq_of_lt (by omega)
  have hb2 : (base + 2) % u32Mod = base + 2 := Nat.mod_eq_of_lt (by omega)
  have hlen1 : (splice buf base [0x20]).length = buf.length :=
    splice_length buf base [0x20] (by simp; omega)
  show (match setByte (splice buf base [0x20]) ((base + 1) % u32Mod) 0 with
        | none => none
        | some b2 => writeStrs b2 ((base + 2) % u32Mod) strs) =
      some (splice buf base (strTableBytes strs))
  rw [hb1, setByte_splice (splice buf base [0x20]) (base + 1) 0 (by rw [hlen1]; omega)]
  have hsp1 : splice (splice buf base [0x20]) (base + 1) [0] =
      splice buf base [0x20, 0] := by
    have := splice_splice buf base [0x20] [0] (by simp; omega)
    simpa using this
  show writeStrs (splice (splice buf base [0x20]) (base + 1) [0]) ((base + 2) % u32Mod) strs =
    some (splice buf base (strTableBytes strs))
  rw [hsp1, hb2]
  have hlen2 : (splice buf base [0x20, 0]).length = buf.length :=
    splice_length buf base [0x20, 0] (by simp; omega)
  rw [writeStrs_splice strs (splice buf base [0x20, 0]) (base + 2)
        (by rw [hlen2]; omega) (by omega)]
  have := splice_splice buf base [0x20, 0] (joinPlus strs) (by simp; omega)
  have harg : base + ([0x20, 0] : List Nat).length = base + 2 := by simp
  rw [harg] at this
  rw [this]
  simp [strTableBytes]

/-- Dropping to a position inside the spliced block exposes its tail
followed by the untouched suffix of the buffer. -/
theorem splice_drop (buf : List Nat) (i : Nat) (bs : List Nat) (k : Nat)
    (hk : k ≤ bs.length) (h : i + bs.length ≤ buf.length) :
    (splice buf i bs).drop (i + k) = bs.drop k ++ buf.drop (i + bs.length) := by
  have hti : (buf.take i).length = i := by
    simp [List.length_take]
    omega
  simp only [splice, List.append_assoc]
  rw [List.drop_append_eq_append_drop, hti]
  have e1 : (buf.take i).drop (i + k) = [] := List.drop_eq_nil_of_le (by omega)
  have e2 : i + k - i = k := by omega
  rw [e1, e2, List.drop_append_eq_append_drop]
  have e3 : (buf.drop (i + bs.length)).drop (k - bs.length) = buf.drop (i + bs.length) := by
    have : k - bs.length = 0 := by omega
    rw [this, List.drop_zero]
  rw [e3]
  simp

/-- Reading byte `n` is reading byte 0 of the suffix from `n`. -/
theorem getD_via_drop (l : List Nat) (n : Nat) : l.getD n 0 = (l.drop n).getD 0 0 := by
  simp [List.getD_eq_getElem?_getD, List.getElem?_drop]

/-- The byte length of the serialized names equals the full prefix
length. -/
theorem joinPlus_length : ∀ strs : List (List Nat),
    (joinPlus strs).length = prefLen strs strs.length := by
  intro strs
  induction strs with
  | nil => simp [joinPlus, prefLen]
  | cons s ss ih =>
    simp only [joinPlus, List.map_cons, List.flatten_cons, List.length_append,
      List.length_cons]
    rw [show prefLen (s :: ss) (ss.length + 1) = s.length + 1 + prefLen ss ss.length from rfl]
    simp only [joinPlus] at ih
    simp [ih]

/-- Prefix lengths only look at the first `j` names. -/
theorem prefLen_mono : ∀ (strs : List (List Nat)) (j k : Nat), j ≤ k →
    prefLen strs j ≤ prefLen strs k := by
  intro strs
  induction strs with
  | nil =>
    intro j k hjk
    match j, k with
    | 0, _ => simp [prefLen]
    | j+1, 0 => omega
    | j+1, k+1 => simp [prefLen]
  | cons s ss ih =>
    intro j k hjk
    match j, k with
    | 0, _ => simp [prefLen]
    | j+1, 0 => omega
    | j+1, k+1 =>
      simp only [prefLen]
      have := ih j k (by omega)
      omega

/-- Dropping a full prefix of serialized names exposes name `i` (with its
terminator) at the front. -/
theorem joinPlus_drop_pref : ∀ (strs : List (List Nat)) (i : Nat), i < strs.length →
    (joinPlus strs).drop (prefLen strs i) =
      (strs.getD i [] ++ [0]) ++ joinPlus (strs.drop (i+1)) := by
  intro strs
  induction strs with
  | nil => intro i hi; simp at hi
  | cons s ss ih =>
    intro i hi
    match i with
    | 0 =>
      simp [prefLen, joinPlus]
    | i'+1 =>
      have hjp : joinPlus (s :: ss) = (s ++ [0]) ++ joinPlus ss := by simp [joinPlus]
      rw [hjp]
      show ((s ++ [0]) ++ joinPlus ss).drop (s.length + 1 + prefLen ss i') = _
      rw [List.drop_append_eq_append_drop]
      have e1 : (s ++ [0]).drop (s.length + 1 + prefLen ss i') = [] :=
        List.drop_eq_nil_of_le (by simp)
      have e2 : s.length + 1 + prefLen ss i' - (s ++ [0]).length = prefLen ss i' := by
        simp
      rw [e1, e2, List.nil_append]
      rw [ih i' (by simpa using hi)]
      simp

/-- The string cursor advance over a range dominates that over a
prefix. -/
theorem lensum_le (syms : List Symbol) (iext : Nat) :
    ∀ (k j i : Nat), j ≤ k → lensum syms iext i j ≤ lensum syms iext i k := by
  intro k
  induction k with
  | zero =>
    intro j i hjk
    match j with
    | 0 => exact le_refl _
  | succ k ih =>
    intro j i hjk
    match j with
    | 0 => simp [lensum]
    | j'+1 =>
      simp only [lensum]
      have := ih j' (i+1) (by omega)
      omega

/-- The names retained by the symbol loop have the prefix lengths the
cursor computes. -/
theorem synthSymsAux_prefLen (syms : List Symbol) (iext : Nat) :
    ∀ (k i cur j : Nat), j ≤ k → i + k + iext ≤ syms.length → syms.length ≤ u32Mod →
      prefLen ((synthSymsAux syms iext i cur k).2.2.1) j = lensum syms iext i j := by
  intro k
  induction k with
  | zero =>
    intro i cur j hj hb hl
    match j with
    | 0 => rfl
  | succ k ih =>
    intro i cur j hj hb hl
    have hm : u32Mod = 4294967296 := by norm_num [u32Mod]
    have hii : (i + iext) % u32Mod = iext + i := by
      rw [hm]
      rw [hm] at hl
      omega
    match j with
    | 0 => rfl
    | j'+1 =>
      simp only [synthSymsAux, hii]
      show ((syms.getD (iext + i) default).name).length + 1 +
          prefLen ((synthSymsAux syms iext (i+1) _ k).2.2.1) j' = _
      rw [ih (i+1) _ j' (by omega) (by omega) hl]
      simp [lensum]

/-- C2: the output string table begins at `linkeditstringbase`
(= 4096 + Nextdefsym × symbol-entry-size) with the bytes `0x20, 0x00`;
each retained symbol's wire name-offset points at the first byte of its
null-terminated name inside the table; and the new symtab's `Strsize`
equals the final cursor, 2 plus the sum of `name length + 1` over the
retained symbols.  The hypotheses say the write stayed in bounds (Go would
panic otherwise) and the `uint32` quantities do not wrap. -/
theorem c2_string_table_wellformed (syms : List Symbol) (iext n magic : Nat)
    (buf buf2 : List Nat) (base : Nat)
    (hbound : iext + n ≤ syms.length) (hlen : syms.length ≤ u32Mod)
    (hroom : base + 2 + lensum syms iext 0 n ≤ buf.length)
    (hwrap : base + 2 + lensum syms iext 0 n < u32Mod)
    (hnb : 4096 + symbolSize magic * n < u32Mod)
    (hw : writeStringTable buf base ((synthSymtab syms iext n).2.2.1) = some buf2) :
    linkeditstringbase magic n = 4096 + symbolSize magic * n ∧
    buf2.getD base 0 = 0x20 ∧
    buf2.getD (base + 1) 0 = 0 ∧
    (∀ i, i < n →
      (buf2.drop (base + ((synthSymtab syms iext n).2.1.getD i default).name)).take
          ((syms.getD (iext + i) default).name.length + 1) =
        (syms.getD (iext + i) default).name ++ [0]) ∧
    (synthSymtab syms iext n).2.2.2 = 2 + lensum syms iext 0 n := by
  obtain ⟨h1, h2, h3, h4, h5, h6, h7⟩ :=
    synthSymsAux_spec syms iext n 0 2 (by norm_num [u32Mod]) (by omega) hlen
  simp only [synthSymtab] at hw ⊢
  have hpl : ∀ j, j ≤ n → prefLen ((synthSymsAux syms iext 0 2 n).2.2.1) j =
      lensum syms iext 0 j :=
    fun j hj => synthSymsAux_prefLen syms iext n 0 2 j hj (by omega) hlen
  have hjl : (joinPlus ((synthSymsAux syms iext 0 2 n).2.2.1)).length =
      lensum syms iext 0 n := by
    rw [joinPlus_length, h3, hpl n (le_refl n)]
  have hstb : (strTableBytes ((synthSymsAux syms iext 0 2 n).2.2.1)).length =
      2 + lensum syms iext 0 n := by
    simp [strTableBytes, hjl]
    omega
  have hwspl := writeStringTable_splice ((synthSymsAux syms iext 0 2 n).2.2.1) buf base
    (by rw [hjl]; omega) (by rw [hjl]; omega)
  rw [hwspl] at hw
  have hbuf2 : buf2 = splice buf base (strTableBytes ((synthSymsAux syms iext 0 2 n).2.2.1)) :=
    (Option.some.inj hw).symm
  subst hbuf2
  have hsplen : base + (strTableBytes ((synthSymsAux syms iext 0 2 n).2.2.1)).length ≤
      buf.length := by
    rw [hstb]; omega
  refine ⟨?_, ?_, ?_, ?_, ?_⟩
  · simp only [linkeditstringbase, linkeditsymbase]
    have hx : symbolSize magic * n < u32Mod := by omega
    rw [Nat.mod_eq_of_lt hx, Nat.mod_eq_of_lt hnb]
  · rw [getD_via_drop]
    have := splice_drop buf base (strTableBytes ((synthSymsAux syms iext 0 2 n).2.2.1)) 0
      (by omega) hsplen
    rw [Nat.add_zero] at this
    rw [this]
    simp [strTableBytes]
  · rw [getD_via_drop]
    have := splice_drop buf base (strTableBytes ((synthSymsAux syms iext 0 2 n).2.2.1)) 1
      (by rw [hstb]; omega) hsplen
    rw [this]
    simp [strTableBytes]
  · intro i hi
    have hSle : lensum syms iext 0 i ≤ lensum syms iext 0 n := lensum_le syms iext n i 0 hi.le
    have hname : ((synthSymsAux syms iext 0 2 n).2.1.getD i default).name =
        2 + lensum syms iext 0 i := by
      rw [h6 i hi]
      exact Nat.mod_eq_of_lt (by omega)
    rw [hname]
    have hdr := splice_drop buf base (strTableBytes ((synthSymsAux syms iext 0 2 n).2.2.1))
      (2 + lensum syms iext 0 i) (by rw [hstb]; omega) hsplen
    rw [hdr]
    have hdrop2 : (strTableBytes ((synthSymsAux syms iext 0 2 n).2.2.1)).drop
        (2 + lensum syms iext 0 i) =
        (joinPlus ((synthSymsAux syms iext 0 2 n).2.2.1)).drop (lensum syms iext 0 i) := by
      simp only [strTableBytes]
      rw [show 2 + lensum syms iext 0 i = lensum syms iext 0 i + 1 + 1 from by omega]
      simp [List.drop_succ_cons]
    rw [hdrop2, ← hpl i hi.le]
    rw [joinPlus_drop_pref ((synthSymsAux syms iext 0 2 n).2.2.1) i (by omega)]
    have hni : (synthSymsAux syms iext 0 2 n).2.2.1.getD i [] =
        (syms.getD (iext + i) default).name := by
      have := h5 i hi
      simpa using this
    rw [hni, List.append_assoc]
    have := List.take_left ((syms.getD (iext + i) default).name ++ [0])
      (joinPlus (((synthSymsAux syms iext 0 2 n).2.2.1).drop (i+1)) ++
        buf.drop (base + (strTableBytes ((synthSymsAux syms iext 0 2 n).2.2.1)).length))
    simpa using this
  · rw [h7]
    exact Nat.mod_eq_of_lt (by omega)

/-- Witness for C2 at `exSyms`, `Iextdefsym = 1`, `Nextdefsym = 2`, a
20-byte buffer of filler bytes 7 and table base 5. -/
theorem c2_string_witness :
    linkeditstringbase Magic32 2 = 4096 + symbolSize Magic32 * 2 ∧
    exC2Buf2.getD 5 0 = 0x20 ∧
    exC2Buf2.getD (5 + 1) 0 = 0 ∧
    (∀ i, i < 2 →
      (exC2Buf2.drop (5 + ((synthSymtab exSyms 1 2).2.1.getD i default).name)).take
          ((exSyms.getD (1 + i) default).name.length + 1) =
        (exSyms.getD (1 + i) default).name ++ [0]) ∧
    (synthSymtab exSyms 1 2).2.2.2 = 2 + lensum exSyms 1 0 2 :=
  c2_string_table_wellformed exSyms 1 2 Magic32 (List.replicate 20 7) exC2Buf2 5
    (by norm_num [exSyms]) (by norm_num [exSyms, u32Mod])
    (by decide) (by decide) (by decide) (by rfl)

/-- Writing at one store index leaves the others unchanged. -/
theorem getD_set_ne (l : List Sectn) (i j : Nat) (a : Sectn) (h : i ≠ j) :
    (l.set i a).getD j default = l.getD j default := by
  simp [List.getD_eq_getElem?_getD, List.getElem?_set_ne h]

/-- Allocating at the end of the store leaves the prefix unchanged. -/
theorem getD_append_left (l1 l2 : List Sectn) (j : Nat) (h : j < l1.length) :
    (l1 ++ l2).getD j default = l1.getD j default := by
  simp [List.getD_eq_getElem?_getD, List.getElem?_append_left h]

/-- Reading back an in-bounds store write. -/
theorem getD_set_self (l : List Sectn) (i : Nat) (a : Sectn) (h : i < l.length) :
    (l.set i a).getD i default = a := by
  simp [List.getD_eq_getElem?_getD, List.getElem?_set_self h]

/-- One `copyZOdSections` iteration grows the store by one entry. -/
theorem copyZOdStep_length (st : List Sectn) (i : Nat) :
    (copyZOdStep st i).length = st.length + 1 := by
  simp [copyZOdStep]

/-- One `copyZOdSections` iteration writes only the fresh entry. -/
theorem copyZOdStep_prefix (st : List Sectn) (i j : Nat) (h : j < st.length) :
    (copyZOdStep st i).getD j default = st.getD j default := by
  simp only [copyZOdStep]
  rw [getD_set_ne _ st.length j _ (by omega), getD_set_ne _ st.length j _ (by omega),
      getD_set_ne _ st.length j _ (by omega), getD_append_left st _ j h]

/-- One DWARF-loop iteration grows the store by one entry. -/
theorem dwarfStep_length (st : List Sectn) (i off us : Nat) :
    (dwarfStep st i off us).length = st.length + 1 := by
  simp only [dwarfStep]
  split_ifs <;> simp

/-- One DWARF-loop iteration writes only the fresh entry. -/
theorem dwarfStep_prefix (st : List Sectn) (i off us j : Nat) (h : j < st.length) :
    (dwarfStep st i off us).getD j default = st.getD j default := by
  simp only [dwarfStep]
  split_ifs <;>
    simp only [getD_set_ne _ st.length j _ (by omega : st.length ≠ j),
      getD_append_left st _ j h]

/-- The fresh entry of a DWARF-loop iteration carries the cursor value in
its `Offset` field (the later writes touch other fields only). -/
theorem dwarfStep_offset (st : List Sectn) (i off us : Nat) :
    ((dwarfStep st i off us).getD st.length default).offset = off := by
  simp only [dwarfStep]
  split_ifs <;> simp [getD_set_self, List.length_set]

/-- The uncompressed-size sum only depends on the sections it reads. -/
theorem usSum_congr : ∀ (j i : Nat) (st1 st2 : List Sectn),
    (∀ m, m < j → st1.getD (i + m) default = st2.getD (i + m) default) →
    usSum st1 i j = usSum st2 i j := by
  intro j
  induction j with
  | zero => intro i st1 st2 _; rfl
  | succ j ih =>
    intro i st1 st2 hc
    simp only [usSum]
    have h0 : st1.getD i default = st2.getD i default := by
      have := hc 0 (by omega)
      simpa using this
    rw [h0, ih (i+1) st1 st2 (fun m hm => by
      have := hc (m+1) (by omega)
      rw [show i + (m + 1) = i + 1 + m from by omega] at this
      exact this)]

/-- The `copyZOdSections` loop appends `k` fresh entries and preserves
every pre-existing store entry. -/
theorem copyZOdLoop_spec : ∀ (k i : Nat) (st : List Sectn) (ids : List Nat),
    (copyZOdLoop i k st ids).1.length = st.length + k ∧
    ∀ j, j < st.length → (copyZOdLoop i k st ids).1.getD j default = st.getD j default := by
  intro k
  induction k with
  | zero =>
    intro i st ids
    exact ⟨rfl, fun j hj => rfl⟩
  | succ k ih =>
    intro i st ids
    simp only [copyZOdLoop]
    obtain ⟨ihl, ihp⟩ := ih (i+1) (copyZOdStep st i) (ids ++ [st.length])
    refine ⟨by rw [ihl, copyZOdStep_length]; omega, fun j hj => ?_⟩
    rw [ihp j (by rw [copyZOdStep_length]; omega), copyZOdStep_prefix st i j hj]

/-- The DWARF loop appends `k` fresh entries and preserves every
pre-existing store entry. -/
theorem dwarfLoop_preserves : ∀ (k i : Nat) (st : List Sectn) (ids : List Nat) (off : Nat)
    (st' : List Sectn) (ids' : List Nat) (off' : Nat),
    dwarfLoop i k st ids off = some (st', ids', off') →
    st'.length = st.length + k ∧
    ∀ j, j < st.length → st'.getD j default = st.getD j default := by
  intro k
  induction k with
  | zero =>
    intro i st ids off st' ids' off' h
    simp only [dwarfLoop, Option.some.injEq, Prod.mk.injEq] at h
    obtain ⟨h1, _, _⟩ := h
    subst h1
    exact ⟨by omega, fun j hj => rfl⟩
  | succ k ih =>
    intro i st ids off st' ids' off' h
    simp only [dwarfLoop] at h
    split at h
    · exact Option.noConfusion h
    · rename_i us hus
      obtain ⟨ihl, ihp⟩ := ih (i+1) (dwarfStep st i off us) (ids ++ [st.length]) _ st' ids' off' h
      refine ⟨by rw [ihl, dwarfStep_length]; omega, fun j hj => ?_⟩
      rw [ihp j (by rw [dwarfStep_length]; omega), dwarfStep_prefix st i off us j hj]

/-- The `j`-th fresh entry of the DWARF loop carries the `uint32` cursor
value `off` plus the truncated uncompressed sizes of the preceding
sections. -/
theorem dwarfLoop_offsets : ∀ (k i : Nat) (st : List Sectn) (ids : List Nat) (off : Nat)
    (st' : List Sectn) (ids' : List Nat) (off' : Nat),
    dwarfLoop i k st ids off = some (st', ids', off') →
    i + k ≤ st.length → off < u32Mod →
    ∀ j, j < k → (st'.getD (st.length + j) default).offset = (off + usSum st i j) % u32Mod := by
  intro k
  induction k with
  | zero =>
    intro i st ids off st' ids' off' h hin hoff j hj
    omega
  | succ k ih =>
    intro i st ids off st' ids' off' h hin hoff j hj
    have hm : u32Mod = 4294967296 := by norm_num [u32Mod]
    simp only [dwarfLoop] at h
    split at h
    · exact Option.noConfusion h
    · rename_i us hus
      match j with
      | 0 =>
        have hpres := (dwarfLoop_preserves k (i+1) (dwarfStep st i off us)
          (ids ++ [st.length]) _ st' ids' off' h).2
        have hlt : st.length < (dwarfStep st i off us).length := by
          rw [dwarfStep_length]; omega
        have := hpres st.length hlt
        rw [Nat.add_zero, this, dwarfStep_offset]
        show off = (off + usSum st i 0) % u32Mod
        rw [show usSum st i 0 = 0 from rfl, Nat.add_zero, Nat.mod_eq_of_lt hoff]
      | j'+1 =>
        have hoff2 : (off + us % u32Mod) % u32Mod < u32Mod :=
          Nat.mod_lt _ (by rw [hm]; norm_num)
        have ihx := ih (i+1) (dwarfStep st i off us) (ids ++ [st.length])
          ((off + us % u32Mod) % u32Mod) st' ids' off' h
          (by rw [dwarfStep_length]; omega) hoff2 j' (by omega)
        rw [dwarfStep_length] at ihx
        rw [show st.length + (j' + 1) = st.length + 1 + j' from by omega]
        rw [ihx]
        have hcongr : usSum (dwarfStep st i off us) (i+1) j' = usSum st (i+1) j' := by
          refine usSum_congr j' (i+1) _ _ (fun m hm2 => ?_)
          exact dwarfStep_prefix st i off us (i+1+m) (by omega)
        rw [hcongr]
        have hus0 : (st.getD i default).uncompressedSize.getD 0 = us := by
          rw [hus]
          rfl
        show ((off + us % u32Mod) % u32Mod + usSum st (i+1) j') % u32Mod =
          (off + usSum st i (j'+1)) % u32Mod
        rw [show usSum st i (j'+1) =
              (st.getD i default).uncompressedSize.getD 0 + usSum st (i+1) j' from rfl,
            hus0]
        rw [hm]
        omega

/-- Writing at one heap index leaves the others unchanged (any element
type). -/
theorem getD_set_ne_any {α : Type} [Inhabited α] (l : List α) (i j : Nat)
    (a : α) (h : i ≠ j) :
    (l.set i a).getD j default = l.getD j default := by
  simp [List.getD_eq_getElem?_getD, List.getElem?_set_ne h]

/-- Allocating at the end of a heap leaves the prefix unchanged (any
element type). -/
theorem getD_append_left_any {α : Type} [Inhabited α] (l1 l2 : List α)
    (j : Nat) (h : j < l1.length) :
    (l1 ++ l2).getD j default = l1.getD j default := by
  simp [List.getD_eq_getElem?_getD, List.getElem?_append_left h]

/-- Reading back an in-bounds heap write (any element type). -/
theorem getD_set_self_any {α : Type} [Inhabited α] (l : List α) (i : Nat)
    (a : α) (h : i < l.length) :
    (l.set i a).getD i default = a := by
  simp [List.getD_eq_getElem?_getD, List.getElem?_set_self h]

/-- The TOC-building phase leaves every source section, every source
symtab, and every source segment header other than the `__PAGEZERO`
passed to `AddSegment` unchanged; the `__PAGEZERO` header itself reads
back with only its `Firstsect` re-anchored to 0. -/
theorem buildToc_preserves (b : BuildIn) (m : BuildMid) (pz : Nat)
    (h : buildToc b = some m)
    (hpz : findSegment b.segs nmPAGEZERO b.loads = some pz) :
    (∀ i, i < b.segs.length → i ≠ pz →
      m.segs.getD i default = b.segs.getD i default) ∧
    (pz < b.segs.length →
      m.segs.getD pz default =
        { b.segs.getD pz default with firstsect := 0 }) ∧
    (∀ j, j < b.store.length →
      m.store.getD j default = b.store.getD j default) ∧
    (∀ s, s < b.symHeap.length →
      m.symHeap.getD s default = b.symHeap.getD s default) := by
  simp only [buildToc] at h
  split at h
  case _ stId dysym =>
    split at h
    case _ textId dataId linkeditId pagezeroId dwarfId
        htext hdata hlink hpage hdwarf =>
      rw [hpz] at hpage
      injection hpage with hpzeq
      subst hpzeq
      split at h
      · exact Option.noConfusion h
      case _ fsz hfsz =>
        split at h
        · exact Option.noConfusion h
        case _ res hres =>
          injection h with hm
          subst hm
          dsimp only
          obtain ⟨hl1, hp1⟩ := copyZOdLoop_spec
            (b.segs.getD textId default).nsect
            (b.segs.getD textId default).firstsect b.store []
          obtain ⟨hl2, hp2⟩ := copyZOdLoop_spec
            (b.segs.getD dataId default).nsect
            (b.segs.getD dataId default).firstsect
            (copyZOdLoop (b.segs.getD textId default).firstsect
              (b.segs.getD textId default).nsect b.store []).1
            (copyZOdLoop (b.segs.getD textId default).firstsect
              (b.segs.getD textId default).nsect b.store []).2
          obtain ⟨hl3, hp3⟩ := dwarfLoop_preserves
            (b.segs.getD dwarfId default).nsect
            (b.segs.getD dwarfId default).firstsect _ _ _ res.1 res.2.1 res.2.2 hres
          refine ⟨fun i hi hne => ?_, fun hlt => ?_, fun j hj => ?_, fun s hs => ?_⟩
          · rw [getD_append_left_any _ _ i (by simpa using hi),
              getD_set_ne_any _ pz i _ (Ne.symm hne)]
          · rw [getD_append_left_any _ _ pz (by simpa using hlt),
              getD_set_self_any _ pz _ hlt]
          · rw [hp3 j (by omega), hp2 j (by omega), hp1 j hj]
          · exact getD_append_left_any _ _ s hs
    · exact Option.noConfusion h
  · exact Option.noConfusion h

/-- C8 (amended): running the synthesis engine and serialising the output
leaves the source file's table of contents unchanged except for one
header: every source section object, every source symtab (so every parsed
symbol), the source load list (a pure value the engine never rebinds), and
every source segment header other than `__PAGEZERO` hold the same values
after build-and-serialise as immediately after parsing — all writes land
in fresh copies or the output buffer — but `AddSegment` (spec 4.2)
anchors `Firstsect` on the segment it is handed, and sd.go 200 hands it
the source-owned `__PAGEZERO`, whose `Firstsect` is thereby re-anchored
to 0, the new TOC's section count at that point. -/
theorem c8_source_toc_amended (b : BuildIn) (out : BuildResult) (pz : Nat)
    (h : mainBuild b = some out)
    (hpz : findSegment b.segs nmPAGEZERO b.loads = some pz)
    (hlt : pz < b.segs.length) :
    (∀ i, i < b.segs.length → i ≠ pz →
      out.segs.getD i default = b.segs.getD i default) ∧
    out.segs.getD pz default =
      { b.segs.getD pz default with firstsect := 0 } ∧
    (∀ j, j < b.store.length →
      out.store.getD j default = b.store.getD j default) ∧
    (∀ s, s < b.symHeap.length →
      out.symHeap.getD s default = b.symHeap.getD s default) := by
  simp only [mainBuild] at h
  split at h
  · exact Option.noConfusion h
  case _ m hmid =>
    split at h
    · exact Option.noConfusion h
    case _ buf hbuf =>
      injection h with hout
      subst hout
      obtain ⟨h1, h2, h3, h4⟩ := buildToc_preserves b m pz hmid hpz
      exact ⟨h1, h2 hlt, h3, h4⟩

/-- The TOC-building phase on the concrete input evaluates to `exMid`. -/
theorem buildToc_exBuildIn : buildToc exBuildIn = some exMid := by rfl

/-- The serialisation phase succeeds on `exMid`: the nlist lands at
offset 4096, the string table at 4112, there are no DWARF payloads, and
the 600-byte TOC image lands at offset 0, all inside the 8192-byte
buffer. -/
theorem serializeOutput_exMid_some : ∃ buf, serializeOutput exMid = some buf := by
  have hbs : (nlistBytes exMid.bo exMid.magic ⟨2, 1, 2, 3, 4⟩).length = 16 := by rfl
  have hfs : tocFileSize exMid.magic exMid.segs exMid.newLoads = 8192 := by rfl
  have hrep : (List.replicate 8192 (0 : Nat)).length = 8192 := by
    rw [List.length_replicate]
  have hlen1 : (splice (List.replicate 8192 (0 : Nat)) 4096
      (nlistBytes exMid.bo exMid.magic ⟨2, 1, 2, 3, 4⟩)).length = 8192 := by
    rw [splice_length _ _ _ (by rw [hbs, hrep]; norm_num), hrep]
  have hnl : exMid.nlists = [⟨2, 1, 2, 3, 4⟩] := by rfl
  have hn : writeNlists exMid.bo exMid.magic (List.replicate 8192 0) 4096
      exMid.nlists =
      some (splice (List.replicate 8192 0) 4096
        (nlistBytes exMid.bo exMid.magic ⟨2, 1, 2, 3, 4⟩)) := by
    rw [hnl]
    simp only [writeNlists, spliceChecked]
    rw [if_pos (by rw [hbs, hrep]; norm_num)]
  have hjp : (joinPlus [[120]]).length = 2 := by rfl
  have hnames : exMid.names = [[120]] := by rfl
  have hw : writeStringTable
      (splice (List.replicate 8192 0) 4096
        (nlistBytes exMid.bo exMid.magic ⟨2, 1, 2, 3, 4⟩)) exMid.strbase
      exMid.names =
      some (splice (splice (List.replicate 8192 0) 4096
        (nlistBytes exMid.bo exMid.magic ⟨2, 1, 2, 3, 4⟩)) 4112
          (strTableBytes [[120]])) := by
    rw [hnames, show exMid.strbase = 4112 from rfl]
    exact writeStringTable_splice [[120]] _ 4112
      (by rw [hjp, hlen1]; norm_num) (by rw [hjp]; norm_num [u32Mod])
  have hst : (strTableBytes [[120]]).length = 4 := by rfl
  have hlen2 : (splice (splice (List.replicate 8192 (0 : Nat)) 4096
      (nlistBytes exMid.bo exMid.magic ⟨2, 1, 2, 3, 4⟩)) 4112
        (strTableBytes [[120]])).length = 8192 := by
    rw [splice_length _ _ _ (by rw [hst, hlen1]; norm_num), hlen1]
  have hns : (exMid.segs.getD exMid.dwarfId default).nsect = 0 := by rfl
  have hp : putDwarfSections exMid.store exMid.newSections
      (u32sub (exMid.segs.getD exMid.newdwarfId default).firstsect
        (exMid.segs.getD exMid.dwarfId default).firstsect)
      (exMid.segs.getD exMid.dwarfId default).firstsect
      (exMid.segs.getD exMid.dwarfId default).nsect
      (splice (splice (List.replicate 8192 0) 4096
        (nlistBytes exMid.bo exMid.magic ⟨2, 1, 2, 3, 4⟩)) 4112
          (strTableBytes [[120]])) =
      some (splice (splice (List.replicate 8192 0) 4096
        (nlistBytes exMid.bo exMid.magic ⟨2, 1, 2, 3, 4⟩)) 4112
          (strTableBytes [[120]])) := by
    rw [hns]
    rfl
  have hhdr : hdrSize exMid.magic = some 32 := by rfl
  have htl : (32 + tocLoadSize exMid.magic exMid.segs 0 exMid.newLoads) % u64Mod
      = 600 := by rfl
  have ht : tocPut exMid.magic exMid.segs exMid.newLoads
      (splice (splice (List.replicate 8192 0) 4096
        (nlistBytes exMid.bo exMid.magic ⟨2, 1, 2, 3, 4⟩)) 4112
          (strTableBytes [[120]])) =
      some (splice (splice (splice (List.replicate 8192 0) 4096
        (nlistBytes exMid.bo exMid.magic ⟨2, 1, 2, 3, 4⟩)) 4112
          (strTableBytes [[120]])) 0 (List.replicate 600 0)) := by
    simp only [tocPut, hhdr, htl, spliceChecked]
    rw [if_pos (by rw [List.length_replicate, hlen2]; norm_num)]
  refine ⟨splice (splice (splice (List.replicate 8192 0) 4096
      (nlistBytes exMid.bo exMid.magic ⟨2, 1, 2, 3, 4⟩)) 4112
        (strTableBytes [[120]])) 0 (List.replicate 600 0), ?_⟩
  simp only [serializeOutput, hfs,
    show (exMid.segs.getD exMid.newlinkeditId default).offset % u32Mod = 4096
      from rfl, hn, hw, hp, ht]

/-- The whole pipeline succeeds on `exBuildIn`; its heap components are
those of `exMid`. -/
theorem mainBuild_exBuildIn : ∃ buf, mainBuild exBuildIn =
    some { segs := exMid.segs, store := exMid.store, symHeap := exMid.symHeap,
           newLoads := exMid.newLoads, newSections := exMid.newSections,
           buffer := buf } := by
  obtain ⟨buf, hs⟩ := serializeOutput_exMid_some
  exact ⟨buf, by simp only [mainBuild, buildToc_exBuildIn, hs]⟩

/-- Witness for C8's amended statement on the concrete input `exBuildIn`
(whose `__PAGEZERO` is heap entry 0): the source `__TEXT` header, the
first source section, and the source symtab read back unchanged, and the
`__PAGEZERO` header reads back with `Firstsect` re-anchored to 0. -/
theorem c8_amended_witness :
    exOut.segs.getD 1 default = exBuildIn.segs.getD 1 default ∧
    exOut.segs.getD 0 default =
      { exBuildIn.segs.getD 0 default with firstsect := 0 } ∧
    exOut.store.getD 0 default = exBuildIn.store.getD 0 default ∧
    exOut.symHeap.getD 0 default = exBuildIn.symHeap.getD 0 default := by
  obtain ⟨buf, hEq⟩ := mainBuild_exBuildIn
  have hsome : mainBuild exBuildIn = some exOut := by
    have hout : exOut =
        { segs := exMid.segs, store := exMid.store,
          symHeap := exMid.symHeap, newLoads := exMid.newLoads,
          newSections := exMid.newSections, buffer := buf } := by
      simp only [exOut, hEq, Option.getD_some]
    rw [hout, hEq]
  obtain ⟨h1, h2, h3, h4⟩ :=
    c8_source_toc_amended exBuildIn exOut 0 hsome (by rfl)
      (by norm_num [exBuildIn])
  exact ⟨h1 1 (by norm_num [exBuildIn]) (by norm_num), h2,
    h3 0 (by norm_num [exBuildIn]), h4 0 (by norm_num [exBuildIn])⟩

/-- Counterexample to C8 as stated: on `exBuildIn` the parsed `__PAGEZERO`
segment header carries `Firstsect = 2` (it was parsed after two sections),
but after build-and-serialise the same source header reads back with
`Firstsect = 0` — `AddSegment` re-anchored it — so not every segment
header of the parsed input holds the value it had immediately after
parsing. -/
theorem c8_mutation_counterexample :
    (exBuildIn.segs.getD 0 default).firstsect = 2 ∧
    (mainBuild exBuildIn).map (fun o => (o.segs.getD 0 default).firstsect) =
      some 0 := by
  obtain ⟨buf, hEq⟩ := mainBuild_exBuildIn
  refine ⟨rfl, ?_⟩
  rw [hEq]
  rfl

/-- C10: the DWARF cursor is `uint32`: the loop assigns the `j`-th output
DWARF section the file offset `newdwarf.Offset + (sum of the preceding
sections' uncompressed sizes)` reduced modulo `2^32` (the initial cursor
is `uint32(newdwarf.Offset)` and each advance truncates to 32 bits), so
offsets wrap rather than following a 64-bit layout. -/
theorem c10_dwarf_section_offsets (dwOffset : Nat) (k i : Nat) (st : List Sectn)
    (ids : List Nat) (st' : List Sectn) (ids' : List Nat) (off' : Nat)
    (h : dwarfLoop i k st ids (dwOffset % u32Mod) = some (st', ids', off'))
    (hin : i + k ≤ st.length) :
    ∀ j, j < k → (st'.getD (st.length + j) default).offset =
      (dwOffset + usSum st i j) % u32Mod := by
  intro j hj
  have := dwarfLoop_offsets k i st ids (dwOffset % u32Mod) st' ids' off' h hin
    (Nat.mod_lt _ (by norm_num [u32Mod])) j hj
  rwa [Nat.mod_add_mod] at this

/-- Witness for C10 with a 64-bit `newdwarf.Offset` of `2^32 + 4096`: the
recorded `uint32` offset is `(2^32 + 4096 + 0) mod 2^32 = 4096`. -/
theorem c10_offsets_witness :
    (exC8Store.getD (([exPlainSec] : List Sectn).length + 0) default).offset =
      (2 ^ 32 + 4096 + usSum [exPlainSec] 0 0) % u32Mod :=
  c10_dwarf_section_offsets (2 ^ 32 + 4096) 1 0 [exPlainSec] [] exC8Store [1] 4101
    (by rfl) (by norm_num) 0 (by norm_num)

end SplitDwarf
